import Mathlib

/-!
# Verification of the gnome-software ODRS and fwupd plugins

Shallow embedding of `plugins/odrs/gs-plugin-odrs.c` and
`plugins/fwupd/gs-plugin-fwupd.c`.  C functions become Lean functions;
external effects (network, disk, the fwupd daemon, GLib library calls) are
supplied through explicit environment records, and the I/O a function
performs is returned as an explicit operation log so that "performs no
network work" style properties can be stated.  Machine integers (`guint`)
are modelled as `Nat`: every subtraction in the embedded code is guarded
exactly as in the C source (`right - left` under `left <= right`,
`middle - 1` under `middle > 0`), so no unsigned wrap-around can occur and
the `Nat` model is faithful.
-/

set_option linter.unusedVariables false

/-! ## The bundled binary-search fallback (`g_array_binary_search`, lines 50-93)

The C loop searches `array[left..right]` while `left <= right`, probing
`middle = left + (right - left) / 2`.  `binsearch_loop` is the loop itself
(returning the match index, i.e. `*out_match_index` when the C function
returns TRUE); `binsearch_probes` records every index at which
`compare_func` is invoked, so that the absence of out-of-bounds reads can
be stated.  `List.getD` is used for the array access; the default value is
never consulted because every probe is proved to be in bounds. -/

def binsearch_loop {α : Type} (arr : List α) (target : α)
    (compare_func : α → α → Int) (left right : Nat) : Option Nat :=
  if _h : left ≤ right then
    if compare_func (arr.getD (left + (right - left) / 2) target) target = 0 then
      some (left + (right - left) / 2)
    else if compare_func (arr.getD (left + (right - left) / 2) target) target < 0 then
      binsearch_loop arr target compare_func (left + (right - left) / 2 + 1) right
    else if 0 < left + (right - left) / 2 then
      binsearch_loop arr target compare_func left (left + (right - left) / 2 - 1)
    else
      none
  else
    none
  termination_by right + 1 - left
  decreasing_by
  · omega
  · omega

/-- The sequence of indices probed by the loop, in order. -/
def binsearch_probes {α : Type} (arr : List α) (target : α)
    (compare_func : α → α → Int) (left right : Nat) : List Nat :=
  if _h : left ≤ right then
    if compare_func (arr.getD (left + (right - left) / 2) target) target = 0 then
      [left + (right - left) / 2]
    else if compare_func (arr.getD (left + (right - left) / 2) target) target < 0 then
      (left + (right - left) / 2) ::
        binsearch_probes arr target compare_func (left + (right - left) / 2 + 1) right
    else if 0 < left + (right - left) / 2 then
      (left + (right - left) / 2) ::
        binsearch_probes arr target compare_func left (left + (right - left) / 2 - 1)
    else
      [left + (right - left) / 2]
  else
    []
  termination_by right + 1 - left
  decreasing_by
  · omega
  · omega

/-- `g_array_binary_search`: `none` models the C function returning FALSE,
`some i` models returning TRUE with `*out_match_index = i`.  The empty
array is handled before the loop (`G_LIKELY(_array->len)`). -/
def g_array_binary_search {α : Type} (arr : List α) (target : α)
    (compare_func : α → α → Int) : Option Nat :=
  if arr.length = 0 then none
  else binsearch_loop arr target compare_func 0 (arr.length - 1)

/-- All indices at which `g_array_binary_search` reads the array. -/
def g_array_binary_search_probes {α : Type} (arr : List α) (target : α)
    (compare_func : α → α → Int) : List Nat :=
  if arr.length = 0 then []
  else binsearch_probes arr target compare_func 0 (arr.length - 1)

/-- Integer comparison with the `GCompareFunc` contract (negative / zero /
positive), used to instantiate the generic search in witnesses. -/
def int_compare (a b : Int) : Int :=
  if a < b then -1 else if b < a then 1 else 0

lemma binsearch_probes_bounds {α : Type} (arr : List α) (target : α)
    (cf : α → α → Int) (left right : Nat) :
    ∀ p ∈ binsearch_probes arr target cf left right, left ≤ p ∧ p ≤ right := by
  induction left, right using binsearch_probes.induct arr target cf with
  | case1 left right hle h0 =>
    rw [binsearch_probes, dif_pos hle, if_pos h0]
    intro p hp
    rw [List.mem_singleton] at hp
    subst hp
    omega
  | case2 left right hle h0 hneg ih =>
    rw [binsearch_probes, dif_pos hle, if_neg h0, if_pos hneg]
    intro p hp
    rw [List.mem_cons] at hp
    rcases hp with heq | hp
    · subst heq
      omega
    · have := ih p hp
      omega
  | case3 left right hle h0 hneg hpos ih =>
    rw [binsearch_probes, dif_pos hle, if_neg h0, if_neg hneg, if_pos hpos]
    intro p hp
    rw [List.mem_cons] at hp
    rcases hp with heq | hp
    · subst heq
      omega
    · have := ih p hp
      omega
  | case4 left right hle h0 hneg hpos =>
    rw [binsearch_probes, dif_pos hle, if_neg h0, if_neg hneg, if_neg hpos]
    intro p hp
    rw [List.mem_singleton] at hp
    subst hp
    omega
  | case5 left right hle =>
    rw [binsearch_probes, dif_neg hle]
    intro p hp
    exact absurd hp (List.not_mem_nil p)

lemma binsearch_loop_sound {α : Type} (arr : List α) (target : α)
    (cf : α → α → Int) (left right : Nat) :
    ∀ i, binsearch_loop arr target cf left right = some i →
      left ≤ i ∧ i ≤ right ∧ cf (arr.getD i target) target = 0 := by
  induction left, right using binsearch_loop.induct arr target cf with
  | case1 left right hle h0 =>
    rw [binsearch_loop, dif_pos hle, if_pos h0]
    intro i hi
    rw [Option.some.injEq] at hi
    subst hi
    refine ⟨by omega, by omega, h0⟩
  | case2 left right hle h0 hneg ih =>
    rw [binsearch_loop, dif_pos hle, if_neg h0, if_pos hneg]
    intro i hi
    have := ih i hi
    exact ⟨by omega, this.2.1, this.2.2⟩
  | case3 left right hle h0 hneg hpos ih =>
    rw [binsearch_loop, dif_pos hle, if_neg h0, if_neg hneg, if_pos hpos]
    intro i hi
    have := ih i hi
    exact ⟨this.1, by omega, this.2.2⟩
  | case4 left right hle h0 hneg hpos =>
    rw [binsearch_loop, dif_pos hle, if_neg h0, if_neg hneg, if_neg hpos]
    intro i hi
    exact absurd hi (by simp)
  | case5 left right hle =>
    rw [binsearch_loop, dif_neg hle]
    intro i hi
    exact absurd hi (by simp)

lemma binsearch_loop_complete {α : Type} (arr : List α) (target : α)
    (cf : α → α → Int)
    (hmono1 : ∀ i j : Nat, i ≤ j → j < arr.length →
      cf (arr.getD j target) target < 0 → cf (arr.getD i target) target < 0)
    (hmono2 : ∀ i j : Nat, i ≤ j → j < arr.length →
      0 < cf (arr.getD i target) target → 0 < cf (arr.getD j target) target)
    (left right : Nat) :
    right < arr.length →
    (∀ k, k < left → cf (arr.getD k target) target < 0) →
    (∀ k, right < k → k < arr.length → 0 < cf (arr.getD k target) target) →
    (∃ j, j < arr.length ∧ cf (arr.getD j target) target = 0) →
    ∃ i, binsearch_loop arr target cf left right = some i := by
  induction left, right using binsearch_loop.induct arr target cf with
  | case1 left right hle h0 =>
    intro _ _ _ _
    rw [binsearch_loop, dif_pos hle, if_pos h0]
    exact ⟨_, rfl⟩
  | case2 left right hle h0 hneg ih =>
    intro hlen hlo hhi hex
    rw [binsearch_loop, dif_pos hle, if_neg h0, if_pos hneg]
    refine ih hlen ?_ hhi hex
    intro k hk
    exact hmono1 k (left + (right - left) / 2) (by omega) (by omega) hneg
  | case3 left right hle h0 hneg hpos ih =>
    intro hlen hlo hhi hex
    rw [binsearch_loop, dif_pos hle, if_neg h0, if_neg hneg, if_pos hpos]
    have hmidpos : 0 < cf (arr.getD (left + (right - left) / 2) target) target := by
      rcases lt_trichotomy (cf (arr.getD (left + (right - left) / 2) target) target) 0 with h | h | h
      · exact absurd h hneg
      · exact absurd h h0
      · exact h
    refine ih (by omega) hlo ?_ hex
    intro k hk hklen
    exact hmono2 (left + (right - left) / 2) k (by omega) hklen hmidpos
  | case4 left right hle h0 hneg hpos =>
    intro hlen hlo hhi hex
    have hmid0 : left + (right - left) / 2 = 0 := by omega
    have hmidpos : 0 < cf (arr.getD 0 target) target := by
      rcases lt_trichotomy (cf (arr.getD (left + (right - left) / 2) target) target) 0 with h | h | h
      · exact absurd h hneg
      · exact absurd h h0
      · rw [hmid0] at h
        exact h
    obtain ⟨j, hj, hj0⟩ := hex
    have := hmono2 0 j (Nat.zero_le j) hj hmidpos
    omega
  | case5 left right hle =>
    intro hlen hlo hhi hex
    obtain ⟨j, hj, hj0⟩ := hex
    rcases Nat.lt_or_ge j left with h | h
    · have := hlo j h
      omega
    · have : right < j := by omega
      have := hhi j this hj
      omega

/-- C10: for an array sorted ascending with respect to the comparison
function (stated as sign-monotonicity of `compare_func · target` along the
array, which is exactly what ascending order gives), the bundled
binary-search fallback returns an index iff an element comparing equal to
the target exists, any returned index is in bounds and compares equal, and
every probed index is inside the array (so no out-of-bounds read happens,
in particular no unsigned underflow when the target orders below every
element).  Totality holds because the embedding is a total Lean function
mirroring the loop with its termination measure `right + 1 - left`. -/
theorem C10_g_array_binary_search_correct {α : Type} (arr : List α) (target : α)
    (compare_func : α → α → Int)
    (hmono1 : ∀ i j : Fin arr.length, i ≤ j →
      compare_func (arr.getD j.val target) target < 0 →
      compare_func (arr.getD i.val target) target < 0)
    (hmono2 : ∀ i j : Fin arr.length, i ≤ j →
      0 < compare_func (arr.getD i.val target) target →
      0 < compare_func (arr.getD j.val target) target) :
    ((∃ i, g_array_binary_search arr target compare_func = some i) ↔
      (∃ j, j < arr.length ∧ compare_func (arr.getD j target) target = 0))
    ∧ (∀ i, g_array_binary_search arr target compare_func = some i →
        i < arr.length ∧ compare_func (arr.getD i target) target = 0)
    ∧ (∀ p ∈ g_array_binary_search_probes arr target compare_func, p < arr.length) := by
  by_cases hlen : arr.length = 0
  · refine ⟨?_, ?_, ?_⟩
    · constructor
      · intro ⟨i, hi⟩
        rw [g_array_binary_search, if_pos hlen] at hi
        exact absurd hi (by simp)
      · intro ⟨j, hj, _⟩
        omega
    · intro i hi
      rw [g_array_binary_search, if_pos hlen] at hi
      exact absurd hi (by simp)
    · intro p hp
      rw [g_array_binary_search_probes, if_pos hlen] at hp
      exact absurd hp (by simp)
  · have hm1 : ∀ i j : Nat, i ≤ j → j < arr.length →
        compare_func (arr.getD j target) target < 0 →
        compare_func (arr.getD i target) target < 0 := by
      intro i j hij hj h
      exact hmono1 ⟨i, by omega⟩ ⟨j, by omega⟩ hij h
    have hm2 : ∀ i j : Nat, i ≤ j → j < arr.length →
        0 < compare_func (arr.getD i target) target →
        0 < compare_func (arr.getD j target) target := by
      intro i j hij hj h
      exact hmono2 ⟨i, by omega⟩ ⟨j, by omega⟩ hij h
    refine ⟨⟨?_, ?_⟩, ?_, ?_⟩
    · intro ⟨i, hi⟩
      rw [g_array_binary_search, if_neg hlen] at hi
      have := binsearch_loop_sound arr target compare_func 0 (arr.length - 1) i hi
      exact ⟨i, by omega, this.2.2⟩
    · intro hex
      obtain ⟨i, hi⟩ := binsearch_loop_complete arr target compare_func hm1 hm2
        0 (arr.length - 1) (by omega) (by omega) (by omega) hex
      refine ⟨i, ?_⟩
      rw [g_array_binary_search, if_neg hlen]
      exact hi
    · intro i hi
      rw [g_array_binary_search, if_neg hlen] at hi
      have := binsearch_loop_sound arr target compare_func 0 (arr.length - 1) i hi
      exact ⟨by omega, this.2.2⟩
    · intro p hp
      rw [g_array_binary_search_probes, if_neg hlen] at hp
      have := binsearch_probes_bounds arr target compare_func 0 (arr.length - 1) p hp
      omega

/-- Witness for C10 at the sorted array `[-4, 2, 7]` and target `2`. -/
theorem C10_g_array_binary_search_correct_witness :
    ((∃ i, g_array_binary_search [(-4 : Int), 2, 7] 2 int_compare = some i) ↔
      (∃ j, j < [(-4 : Int), 2, 7].length ∧
        int_compare ([(-4 : Int), 2, 7].getD j 2) 2 = 0))
    ∧ (∀ i, g_array_binary_search [(-4 : Int), 2, 7] 2 int_compare = some i →
        i < [(-4 : Int), 2, 7].length ∧ int_compare ([(-4 : Int), 2, 7].getD i 2) 2 = 0)
    ∧ (∀ p ∈ g_array_binary_search_probes [(-4 : Int), 2, 7] 2 int_compare,
        p < [(-4 : Int), 2, 7].length) :=
  C10_g_array_binary_search_correct [(-4 : Int), 2, 7] 2 int_compare
    (by decide) (by decide)

example : g_array_binary_search [(-4 : Int), 2, 7] 2 int_compare = some 1 := by
  simp [g_array_binary_search, binsearch_loop, int_compare]
example : g_array_binary_search [(-4 : Int), 2, 7] (-9) int_compare = none := by
  simp [g_array_binary_search, binsearch_loop, int_compare]
example : g_array_binary_search ([] : List Int) 3 int_compare = none := by
  simp [g_array_binary_search]
example : g_array_binary_search [(1 : Int), 3] 0 int_compare = none := by
  simp [g_array_binary_search, binsearch_loop, int_compare]

/-! ## Shared data model

`GS_PLUGIN_ERROR` codes used by the two plugins (`gs-plugin-types.h` is not
part of src/, but the names are fixed by the call sites in the two C
files). -/

inductive GsPluginErrorCode
  | failed
  | notSupported
  | cancelled
  | noNetwork
  | noSecurity
  | authInvalid
  | acPowerRequired
  | batteryLevelTooLow
  | invalidFormat
  | downloadFailed
  | writeFailed
  deriving DecidableEq, Repr

inductive GsAppState
  | unknown
  | installed
  | available
  | queuedForInstall
  | installing
  | removing
  | updatable
  | updatableLive
  | unavailable
  deriving DecidableEq, Repr

inductive AsComponentKind
  | generic
  | desktopApp
  | addon
  | firmware
  | repository
  deriving DecidableEq, Repr

/-- `AsReview`, restricted to the fields the two plugins read or write.
`app_id` and `user_skey` model the review metadata items of those names. -/
structure AsReview where
  reviewer_id : Option String
  rating : Int
  app_id : Option String
  user_skey : Option String
  flag_self : Bool
  flag_voted : Bool
  deriving DecidableEq, Repr

/-- The shared application record (`GsApp`), restricted to the attributes
the ODRS and fwupd plugins touch.  `odrs_user_skey` is the metadata item
`ODRS::user_skey`, `fwupd_remote_id` is `fwupd::remote-id`, `only_offline`
is the presence of `fwupd::OnlyOffline`. -/
structure GsApp where
  id : Option String
  kind : AsComponentKind
  state : GsAppState
  state_recover : GsAppState
  management_plugin : Option String
  provided_ids : List String
  version : Option String
  update_version : Option String
  reviews : List AsReview
  review_ratings : Option (List Nat)
  rating : Option Int
  odrs_user_skey : Option String
  fwupd_remote_id : Option String
  fwupd_device_id : Option String
  local_file : Option String
  only_offline : Bool
  needs_user_action : Bool
  size_download : Option Nat
  name : Option String
  summary : Option String
  description : Option String
  action_screenshot : Option String
  deriving DecidableEq, Repr

/-- An app with every attribute unset, the state of a fresh `gs_app_new`. -/
def GsApp.base : GsApp :=
  ⟨none, .generic, .unknown, .unknown, none, [], none, none, [], none, none,
   none, none, none, none, false, false, none, none, none, none, none⟩

/-- Modelled from the spec: `gs_app_set_state` (gs-app.c is not under
src/).  Setting the state an app already has is a no-op; entering one of
the transient states INSTALLING/REMOVING records the prior state so that a
failed operation can restore it (spec 3: State is a state machine; the
failure policy needs the pre-attempt state back). -/
def gs_app_set_state (app : GsApp) (s : GsAppState) : GsApp :=
  if app.state = s then app
  else if s = .installing ∨ s = .removing then
    { app with state := s, state_recover := app.state }
  else
    { app with state := s }

/-- Modelled from the spec: `gs_app_set_state_recover` restores the state
saved when the transient state was entered. -/
def gs_app_set_state_recover (app : GsApp) : GsApp :=
  { app with state := app.state_recover }

/-- Modelled from the spec: `gs_app_add_review` appends to the reviews
attribute. -/
def gs_app_add_review (app : GsApp) (r : AsReview) : GsApp :=
  { app with reviews := app.reviews ++ [r] }

/-! ## The ODRS review plugin (`plugins/odrs/gs-plugin-odrs.c`) -/

/-- Line 95: `#define ODRS_REVIEW_CACHE_AGE_MAX 237000 /* 1 week */`.
The C comment says one week, but one week is 604800 seconds. -/
def ODRS_REVIEW_CACHE_AGE_MAX : Nat := 237000

def ODRS_REVIEW_NUMBER_RESULTS_MAX : Nat := 20

/-- One element of `priv->ratings`: an app id and the six star counters
`star0..star5`. -/
structure GsOdrsRating where
  app_id : Option String
  n_star_ratings : List Nat
  deriving DecidableEq, Repr

/-- Sign of `strcmp`; the magnitude of the C result is irrelevant to every
use site. -/
def string_compare (a b : String) : Int :=
  if a < b then -1 else if b < a then 1 else 0

/-- `g_strcmp0`: NULL-safe string comparison, NULL ordering first. -/
def g_strcmp0 : Option String → Option String → Int
  | none, none => 0
  | none, some _ => -1
  | some _, none => 1
  | some a, some b => string_compare a b

/-- `rating_compare` (line 105): compare two ratings by app id. -/
def rating_compare (a b : GsOdrsRating) : Int :=
  g_strcmp0 a.app_id b.app_id

/-- Insertion step of `g_array_sort` with `rating_compare` (the sort used
by `gs_plugin_odrs_load_ratings`; a stable sort modelled as insertion
sort). -/
def rating_insert (r : GsOdrsRating) : List GsOdrsRating → List GsOdrsRating
  | [] => [r]
  | x :: xs =>
    if rating_compare r x ≤ 0 then r :: x :: xs else x :: rating_insert r xs

def g_array_sort_ratings (l : List GsOdrsRating) : List GsOdrsRating :=
  l.foldr rating_insert []

/-- The immutable part of `GsPluginData`: the review server setting, the
machine+user hash and the distro name.  None of the refine/refresh paths
mutates these. -/
structure OdrsConfig where
  review_server : Option String
  user_hash : String
  distro : String
  deriving DecidableEq, Repr

/-- The plugin is enabled iff the review server setting is a non-empty
string (`priv->review_server == NULL || priv->review_server[0] == '\0'`
checks at lines 309, 685, 812, 1089, 1165, 1303). -/
def odrs_enabled (cfg : OdrsConfig) : Bool :=
  match cfg.review_server with
  | none => false
  | some s => s ≠ ""

/-- The mutable part of `GsPluginData`: the loaded ratings array
(`priv->ratings`, NULL until first loaded). -/
structure OdrsState where
  ratings : Option (List GsOdrsRating)
  deriving DecidableEq, Repr

/-- The I/O operations the ODRS plugin can perform, logged so that
"performs zero network work" can be stated. -/
inductive OdrsOp
  | network_download_ratings
  | network_fetch_reviews (app_id : String)
  | network_post (path : String)
  | network_get_moderate
  | disk_load_ratings
  | disk_read_review_cache (app_id : String)
  deriving DecidableEq, Repr

/-- The environment: outcomes of the external operations (disk cache,
network, the JSON parser, GLib utilities not under src/).  Parse failures
and transport failures are collapsed into the `GS_PLUGIN_ERROR` code the
C helpers convert them to. -/
structure OdrsEnv where
  cache_filename_ok : Bool
  ratings_file_age : Nat
  cache_ratings : Except GsPluginErrorCode (List GsOdrsRating)
  download_ratings_ok : Bool
  downloaded_ratings : Except GsPluginErrorCode (List GsOdrsRating)
  review_file_age : String → Nat
  cached_reviews : String → Except GsPluginErrorCode (List AsReview)
  fetch_reviews : String → Except GsPluginErrorCode (List AsReview)
  save_review_cache_ok : Bool
  invalidate_cache_ok : Bool
  post_result : String → Option GsPluginErrorCode
  moderate_reviews : Except GsPluginErrorCode (List AsReview)
  wilson : Nat → Nat → Nat → Nat → Nat → Int
  interactive : Bool

/-- `gs_plugin_odrs_load_ratings` (lines 223-293): parse the ratings file
and replace `priv->ratings` with the sorted array.  The parse outcome is
environment-supplied; on success the state is updated. -/
def gs_plugin_odrs_load_ratings (parsed : Except GsPluginErrorCode (List GsOdrsRating))
    (st : OdrsState) : Except GsPluginErrorCode OdrsState :=
  match parsed with
  | .error e => .error e
  | .ok rs => .ok ⟨some (g_array_sort_ratings rs)⟩

inductive GsPluginEventFlag
  | warning
  | interactive
  deriving DecidableEq, Repr

/-- A reported plugin event; `action_download` models
`GS_PLUGIN_ACTION_DOWNLOAD`. -/
structure GsPluginEvent where
  action_download : Bool
  flag : GsPluginEventFlag
  deriving DecidableEq, Repr

structure OdrsRefreshResult where
  err : Option GsPluginErrorCode
  st : OdrsState
  events : List GsPluginEvent
  ops : List OdrsOp
  deriving DecidableEq, Repr

namespace Odrs

/-- `gs_plugin_refresh` (lines 295-354).  Disabled server: immediate
success.  Fresh cache file: reload from disk.  Otherwise download; a
download failure is reported as an event (WARNING, or INTERACTIVE when
the plugin runs interactively) and the function still returns TRUE. -/
def gs_plugin_refresh (env : OdrsEnv) (cfg : OdrsConfig) (st : OdrsState)
    (cache_age : Nat) : OdrsRefreshResult :=
  if ¬ odrs_enabled cfg then ⟨none, st, [], []⟩
  else if ¬ env.cache_filename_ok then ⟨some .failed, st, [], []⟩
  else if 0 < cache_age ∧ env.ratings_file_age < cache_age then
    match gs_plugin_odrs_load_ratings env.cache_ratings st with
    | .error e => ⟨some e, st, [], [.disk_load_ratings]⟩
    | .ok st2 => ⟨none, st2, [], [.disk_load_ratings]⟩
  else if ¬ env.download_ratings_ok then
    ⟨none, st,
      [⟨true, if env.interactive then .interactive else .warning⟩],
      [.network_download_ratings]⟩
  else
    match gs_plugin_odrs_load_ratings env.downloaded_ratings st with
    | .error e => ⟨some e, st, [], [.network_download_ratings, .disk_load_ratings]⟩
    | .ok st2 => ⟨none, st2, [], [.network_download_ratings, .disk_load_ratings]⟩

end Odrs

/-- `_gs_app_get_reviewable_ids` (lines 643-668): the main component id
followed by the AS_PROVIDED_KIND_ID provides. -/
def _gs_app_get_reviewable_ids (app : GsApp) : List (Option String) :=
  app.id :: app.provided_ids.map some

/-- The rating looked up for one reviewable id: a binary search of the
sorted ratings array with `rating_compare` (lines 717-727). -/
def odrs_lookup_rating (db : List GsOdrsRating) (id : Option String) :
    Option GsOdrsRating :=
  match g_array_binary_search db ⟨id, [0, 0, 0, 0, 0, 0]⟩ rating_compare with
  | none => none
  | some ix => some (db.getD ix ⟨id, [0, 0, 0, 0, 0, 0]⟩)

/-- Pointwise sum of the six star counters (lines 729-732). -/
def odrs_sum6 (a b : List Nat) : List Nat :=
  List.zipWith (· + ·) a b

/-- The accumulation loop of `gs_plugin_odrs_refine_ratings`: the summed
counters and the number of ids found. -/
def odrs_accumulate (db : List GsOdrsRating) (ids : List (Option String)) :
    List Nat × Nat :=
  ids.foldl
    (fun acc id =>
      match odrs_lookup_rating db id with
      | none => acc
      | some r => (odrs_sum6 acc.1 r.n_star_ratings, acc.2 + 1))
    ([0, 0, 0, 0, 0, 0], 0)

/-- Lines 734-754: if any id was found, set the review-ratings attribute
and, when the wilson rating (`gs_utils_get_wilson_rating`, a library
routine outside src/, environment-supplied) is positive, the rating. -/
def odrs_apply_ratings (env : OdrsEnv) (db : List GsOdrsRating)
    (ids : List (Option String)) (app : GsApp) : GsApp :=
  let acc := odrs_accumulate db ids
  if acc.2 = 0 then app
  else
    let rr := acc.1
    let app2 := { app with review_ratings := some rr }
    let rating := env.wilson (rr.getD 1 0) (rr.getD 2 0) (rr.getD 3 0)
      (rr.getD 4 0) (rr.getD 5 0)
    if 0 < rating then { app2 with rating := some rating } else app2

structure OdrsRatingsResult where
  app : GsApp
  st : OdrsState
  ops : List OdrsOp
  deriving DecidableEq, Repr

namespace Odrs

/-- `gs_plugin_odrs_refine_ratings` (lines 670-755).  Always returns TRUE
in C; the result is the possibly-enriched app and the possibly-loaded
ratings state.  When `priv->ratings` is NULL the local cache is loaded
first; any failure of that load degrades to "no ratings" rather than an
error. -/
def gs_plugin_odrs_refine_ratings (env : OdrsEnv) (cfg : OdrsConfig)
    (st : OdrsState) (app : GsApp) : OdrsRatingsResult :=
  if ¬ odrs_enabled cfg then ⟨app, st, []⟩
  else
    match st.ratings with
    | some db => ⟨odrs_apply_ratings env db (_gs_app_get_reviewable_ids app) app, st, []⟩
    | none =>
      if ¬ env.cache_filename_ok then ⟨app, st, []⟩
      else
        match gs_plugin_odrs_load_ratings env.cache_ratings st with
        | .error _ => ⟨app, st, [.disk_load_ratings]⟩
        | .ok st2 =>
          match st2.ratings with
          | none => ⟨app, st2, [.disk_load_ratings]⟩
          | some db =>
            ⟨odrs_apply_ratings env db (_gs_app_get_reviewable_ids app) app, st2,
              [.disk_load_ratings]⟩

/-- `gs_plugin_odrs_fetch_for_app` (lines 791-916).  Disabled server:
empty review list.  A cache file younger than `ODRS_REVIEW_CACHE_AGE_MAX`
is used without touching the network; otherwise the reviews are fetched
from the server (`/fetch`) and saved to the cache.  HTTP/parse outcomes
are environment-supplied, already converted to plugin error codes as the
C helpers do. -/
def gs_plugin_odrs_fetch_for_app (env : OdrsEnv) (cfg : OdrsConfig)
    (app : GsApp) : Except GsPluginErrorCode (List AsReview) × List OdrsOp :=
  if ¬ odrs_enabled cfg then (.ok [], [])
  else
    let aid := app.id.getD ""
    if ¬ env.cache_filename_ok then (.error .failed, [])
    else if env.review_file_age aid < ODRS_REVIEW_CACHE_AGE_MAX then
      (env.cached_reviews aid, [.disk_read_review_cache aid])
    else
      match env.fetch_reviews aid with
      | .error e => (.error e, [.network_fetch_reviews aid])
      | .ok reviews =>
        if ¬ env.save_review_cache_ok then
          (.error .writeFailed, [.network_fetch_reviews aid])
        else
          (.ok reviews, [.network_fetch_reviews aid])

end Odrs

/-- Lines 942-952 of `gs_plugin_odrs_refine_reviews`: skip reviews with
rating 0, mark the user's own review as SELF, attach the rest. -/
def odrs_add_fetched_review (user_hash : String) (app : GsApp) (r : AsReview) :
    GsApp :=
  if r.rating = 0 then app
  else
    gs_app_add_review app
      (if r.reviewer_id = some user_hash then { r with flag_self := true } else r)

structure OdrsReviewsResult where
  err : Option GsPluginErrorCode
  app : GsApp
  ops : List OdrsOp
  deriving DecidableEq, Repr

structure OdrsRefineAppResult where
  err : Option GsPluginErrorCode
  app : GsApp
  st : OdrsState
  ops : List OdrsOp
  deriving DecidableEq, Repr

namespace Odrs

/-- `gs_plugin_odrs_refine_reviews` (lines 918-954): fetch, then stash the
first review's `user_skey` on the app and attach the valid reviews. -/
def gs_plugin_odrs_refine_reviews (env : OdrsEnv) (cfg : OdrsConfig)
    (app : GsApp) : OdrsReviewsResult :=
  match gs_plugin_odrs_fetch_for_app env cfg app with
  | (.error e, ops) => ⟨some e, app, ops⟩
  | (.ok reviews, ops) =>
    let app1 :=
      match reviews with
      | [] => app
      | r0 :: _ => { app with odrs_user_skey := r0.user_skey }
    ⟨none, reviews.foldl (odrs_add_fetched_review cfg.user_hash) app1, ops⟩

end Odrs

/-- The refine flags relevant to the ODRS plugin. -/
structure GsPluginRefineFlags where
  require_reviews : Bool
  require_review_ratings : Bool
  require_rating : Bool
  deriving DecidableEq, Repr

/-- The ratings half of `refine_app` (lines 978-986): skipped when the
attribute is already set, otherwise `gs_plugin_odrs_refine_ratings` runs
(and never fails). -/
def odrs_refine_app_ratings (env : OdrsEnv) (cfg : OdrsConfig) (st : OdrsState)
    (app : GsApp) (flags : GsPluginRefineFlags) (ops : List OdrsOp) :
    OdrsRefineAppResult :=
  if flags.require_review_ratings ∨ flags.require_rating then
    if app.review_ratings ≠ none then ⟨none, app, st, ops⟩
    else
      let r := Odrs.gs_plugin_odrs_refine_ratings env cfg st app
      ⟨none, r.app, r.st, ops ++ r.ops⟩
  else ⟨none, app, st, ops⟩

namespace Odrs

/-- `refine_app` (lines 956-989).  Note the control flow of the reviews
branch: when the app already has reviews the whole function returns TRUE
at once (line 972), so the ratings branch below is not reached. -/
def refine_app (env : OdrsEnv) (cfg : OdrsConfig) (st : OdrsState) (app : GsApp)
    (flags : GsPluginRefineFlags) : OdrsRefineAppResult :=
  if app.kind = .addon then ⟨none, app, st, []⟩
  else if app.id = none then ⟨none, app, st, []⟩
  else if flags.require_reviews then
    if 0 < app.reviews.length then ⟨none, app, st, []⟩
    else
      match gs_plugin_odrs_refine_reviews env cfg app with
      | ⟨some e, app1, ops⟩ => ⟨some e, app1, st, ops⟩
      | ⟨none, app1, ops⟩ => odrs_refine_app_ratings env cfg st app1 flags ops
  else odrs_refine_app_ratings env cfg st app flags []

end Odrs

structure OdrsRefineResult where
  err : Option GsPluginErrorCode
  apps : List GsApp
  st : OdrsState
  attempted : Nat
  deriving DecidableEq, Repr

namespace Odrs

/-- The per-app loop of `gs_plugin_refine` (lines 1004-1017): a
NO_NETWORK failure is only logged and the loop continues; any other
failure aborts with the error.  `attempted` counts loop iterations. -/
def refine_loop (env : OdrsEnv) (cfg : OdrsConfig) (flags : GsPluginRefineFlags) :
    OdrsState → List GsApp → OdrsRefineResult
  | st, [] => ⟨none, [], st, 0⟩
  | st, app :: rest =>
    let r := refine_app env cfg st app flags
    match r.err with
    | some e =>
      if e = .noNetwork then
        let tail := refine_loop env cfg flags r.st rest
        ⟨tail.err, r.app :: tail.apps, tail.st, tail.attempted + 1⟩
      else ⟨some e, r.app :: rest, r.st, 1⟩
    | none =>
      let tail := refine_loop env cfg flags r.st rest
      ⟨tail.err, r.app :: tail.apps, tail.st, tail.attempted + 1⟩

/-- `gs_plugin_refine` (lines 991-1020). -/
def gs_plugin_refine (env : OdrsEnv) (cfg : OdrsConfig) (st : OdrsState)
    (apps : List GsApp) (flags : GsPluginRefineFlags) : OdrsRefineResult :=
  if ¬ (flags.require_reviews ∨ flags.require_review_ratings ∨ flags.require_rating) then
    ⟨none, apps, st, 0⟩
  else refine_loop env cfg flags st apps

end Odrs

structure OdrsPostResult where
  err : Option GsPluginErrorCode
  review : AsReview
  ops : List OdrsOp
  deriving DecidableEq, Repr

namespace Odrs

/-- `gs_plugin_review_submit` (lines 1071-1146): disabled server fails
with NOT_SUPPORTED; otherwise the review is marked SELF, tagged with the
app id and the stored `user_skey`, the per-app cache is invalidated and
the JSON is POSTed to `/submit`.  Cache-invalidation and POST outcomes are
environment-supplied. -/
def gs_plugin_review_submit (env : OdrsEnv) (cfg : OdrsConfig) (app : GsApp)
    (review : AsReview) : OdrsPostResult :=
  if ¬ odrs_enabled cfg then ⟨some .notSupported, review, []⟩
  else
    let review2 := { review with
      flag_self := true
      app_id := app.id
      user_skey := app.odrs_user_skey }
    if ¬ env.invalidate_cache_ok then ⟨some .failed, review2, []⟩
    else
      match env.post_result "submit" with
      | some e => ⟨some e, review2, [.network_post "submit"]⟩
      | none => ⟨none, review2, [.network_post "submit"]⟩

/-- `gs_plugin_odrs_vote` (lines 1148-1219): disabled server fails with
NOT_SUPPORTED; otherwise invalidate the cache, POST to the vote path and
mark the review as VOTED on success. -/
def gs_plugin_odrs_vote (env : OdrsEnv) (cfg : OdrsConfig) (review : AsReview)
    (path : String) : OdrsPostResult :=
  if ¬ odrs_enabled cfg then ⟨some .notSupported, review, []⟩
  else if ¬ env.invalidate_cache_ok then ⟨some .failed, review, []⟩
  else
    match env.post_result path with
    | some e => ⟨some e, review, [.network_post path]⟩
    | none => ⟨none, { review with flag_voted := true }, [.network_post path]⟩

def gs_plugin_review_report (env : OdrsEnv) (cfg : OdrsConfig) (review : AsReview) :
    OdrsPostResult :=
  gs_plugin_odrs_vote env cfg review "report"

def gs_plugin_review_upvote (env : OdrsEnv) (cfg : OdrsConfig) (review : AsReview) :
    OdrsPostResult :=
  gs_plugin_odrs_vote env cfg review "upvote"

def gs_plugin_review_downvote (env : OdrsEnv) (cfg : OdrsConfig) (review : AsReview) :
    OdrsPostResult :=
  gs_plugin_odrs_vote env cfg review "downvote"

def gs_plugin_review_dismiss (env : OdrsEnv) (cfg : OdrsConfig) (review : AsReview) :
    OdrsPostResult :=
  gs_plugin_odrs_vote env cfg review "dismiss"

def gs_plugin_review_remove (env : OdrsEnv) (cfg : OdrsConfig) (review : AsReview) :
    OdrsPostResult :=
  gs_plugin_odrs_vote env cfg review "remove"

end Odrs

/-- `gs_plugin_create_app_dummy` (lines 1271-1283). -/
def gs_plugin_create_app_dummy (id : String) : GsApp :=
  { GsApp.base with
    id := some id
    name := some "Unknown Application"
    summary := some "Application not found"
    description := some ("No description is available for " ++
      (id.replace ".desktop" "")) }

/-- One step of the hash-table loop of `gs_plugin_add_unvoted_reviews`
(lines 1345-1360): attach the review to the entry for its app id,
creating the entry (at the end, as `gs_app_list_add` appends) when the id
is seen for the first time. -/
def odrs_attach (aid : String) (r : AsReview) :
    List (String × List AsReview) → List (String × List AsReview)
  | [] => [(aid, [r])]
  | (k, rs) :: rest =>
    if k = aid then (k, rs ++ [r]) :: rest
    else (k, rs) :: odrs_attach aid r rest

/-- The whole loop: reviews grouped by their `app_id` metadata, in first-
seen order.  A review without the metadata would crash `g_str_hash` in C;
the theorems therefore assume the metadata is present, and `""` stands in
here. -/
def odrs_group_reviews (reviews : List AsReview) : List (String × List AsReview) :=
  reviews.foldl (fun acc r => odrs_attach (r.app_id.getD "") r acc) []

structure OdrsUnvotedResult where
  err : Option GsPluginErrorCode
  apps : List GsApp
  ops : List OdrsOp
  deriving DecidableEq, Repr

namespace Odrs

/-- `gs_plugin_add_unvoted_reviews` (lines 1285-1363): disabled server
fails with NOT_SUPPORTED; otherwise GET `/moderate/...`, parse, and add
one dummy app per distinct review app id, each carrying its reviews.
`apps` is the list of entries added to the (initially empty) caller
list. -/
def gs_plugin_add_unvoted_reviews (env : OdrsEnv) (cfg : OdrsConfig) :
    OdrsUnvotedResult :=
  if ¬ odrs_enabled cfg then ⟨some .notSupported, [], []⟩
  else
    match env.moderate_reviews with
    | .error e => ⟨some e, [], [.network_get_moderate]⟩
    | .ok reviews =>
      ⟨none,
        (odrs_group_reviews reviews).map
          (fun p => { gs_plugin_create_app_dummy p.1 with reviews := p.2 }),
        [.network_get_moderate]⟩

end Odrs

/-! ## The fwupd firmware plugin (`plugins/fwupd/gs-plugin-fwupd.c`) -/

/-- `FWUPD_ERROR` codes matched by the plugin (the remaining daemon codes
fall into the `default` arm and are represented by `internalError`). -/
inductive FwupdErrorCode
  | internalError
  | alreadyPending
  | invalidFile
  | notSupported
  | authFailed
  | signatureInvalid
  | acPowerRequired
  | batteryLevelTooLow
  | nothingToDo
  | notFound
  deriving DecidableEq, Repr

/-- A `GError`: the domain and its code.  `gio`/`gdbus`/`other` carry an
opaque numeric code. -/
inductive GError
  | gs (c : GsPluginErrorCode)
  | fwupd (c : FwupdErrorCode)
  | gio (c : Nat)
  | gdbus (c : Nat)
  | other (domain : Nat) (c : Nat)
  deriving DecidableEq, Repr

/-- Modelled from the spec: `gs_utils_error_convert_gio` (gs-utils.c is
not under src/) rewrites a G_IO_ERROR into the plugin error domain with a
code from the spec taxonomy, and leaves other domains alone (returns
FALSE).  Only the domain handled / not handled distinction and the
taxonomy membership of the result are relied on, so the generic FAILED
code stands for the detailed table. -/
def gs_utils_error_convert_gio (e : GError) : Option GsPluginErrorCode :=
  match e with
  | .gio _ => some .failed
  | _ => none

/-- Modelled from the spec: `gs_utils_error_convert_gdbus`, as above for
G_DBUS_ERROR. -/
def gs_utils_error_convert_gdbus (e : GError) : Option GsPluginErrorCode :=
  match e with
  | .gdbus _ => some .failed
  | _ => none

/-- `gs_plugin_fwupd_error_convert` (lines 38-91). -/
def gs_plugin_fwupd_error_convert (e : GError) : GError :=
  match e with
  | .gs c => .gs c
  | _ =>
    match gs_utils_error_convert_gio e with
    | some c => .gs c
    | none =>
      match gs_utils_error_convert_gdbus e with
      | some c => .gs c
      | none =>
        match e with
        | .fwupd c =>
          .gs (match c with
            | .alreadyPending => .notSupported
            | .invalidFile => .notSupported
            | .notSupported => .notSupported
            | .authFailed => .authInvalid
            | .signatureInvalid => .noSecurity
            | .acPowerRequired => .acPowerRequired
            | .batteryLevelTooLow => .batteryLevelTooLow
            | _ => .failed)
        | _ => .gs .failed

/-- The spec's section-7 error taxonomy: NO_NETWORK, INVALID_FORMAT,
NOT_SUPPORTED, AUTH_FAILED, NO_SECURITY, CANCELLED, DOWNLOAD_FAILED,
WRITE_FAILED, FAILED. -/
def spec_error_code_list : List GsPluginErrorCode :=
  [.noNetwork, .invalidFormat, .notSupported, .authInvalid, .noSecurity,
   .cancelled, .downloadFailed, .writeFailed, .failed]

structure FwupdRelease where
  appstream_id : Option String
  version : Option String
  uri : Option String
  checksums : List String
  deriving DecidableEq, Repr

/-- An fwupd device with its default release (`fwupd_device_get_release_default`;
the call sites under scrutiny all run after a release has been added). -/
structure FwupdDevice where
  device_id : String
  version : Option String
  release_default : FwupdRelease
  update_message : Option String
  deriving DecidableEq, Repr

/-- The calls into the fwupd daemon and the filesystem that
`gs_plugin_fwupd_install` / `gs_plugin_fwupd_modify_source` perform. -/
inductive FwupdOp
  | download_file
  | client_install
  | modify_remote
  | delete_cache_file
  | get_device
  deriving DecidableEq, Repr

/-- Environment of the fwupd plugin: outcomes of daemon and filesystem
calls, plus the library helpers of `gs-fwupd-app.c` (not under src/),
which enrich the shared app from the device/release and are treated as
opaque (`set_from_device`, `set_from_release`), exactly as the C code
only observes their effect through `gs_app` getters. -/
structure FwupdEnv where
  cache_lookup : String → Option GsApp
  set_from_device : GsApp → FwupdDevice → GsApp
  set_from_release : GsApp → FwupdRelease → GsApp
  checksum_by_kind : List String → Option String
  cache_filename : String
  cache_filename_ok : Bool
  cache_file_exists : Bool
  file_checksum : Option String
  local_file_exists : Bool
  download_result : Option GError
  install_result : Option GError
  delete_result : Option GError
  modify_remote_result : Option GError
  device_after_install : Option FwupdDevice

namespace Fwupd

/-- `gs_plugin_fwupd_new_app_from_device` (lines 275-324): NULL when the
release has no AppStream id; otherwise the cached or fresh app enriched
from the device and release, with the management plugin set to "fwupd"
and the app id set to the release AppStream id last. -/
def gs_plugin_fwupd_new_app_from_device (env : FwupdEnv) (dev : FwupdDevice) :
    Option GsApp :=
  match dev.release_default.appstream_id with
  | none => none
  | some asid =>
    let app0 :=
      match env.cache_lookup asid with
      | some a => a
      | none => GsApp.base
    let app1 := { app0 with
      kind := .firmware
      management_plugin := some "fwupd"
      fwupd_device_id := some dev.device_id }
    let app2 := env.set_from_release (env.set_from_device app1 dev) dev.release_default
    some { app2 with id := some asid }

/-- `gs_plugin_fwupd_new_app` (lines 373-487): the validation chain that
turns a device into an update entity, rejecting states other than
UPDATABLE_LIVE, missing
ids/versions, releases without checksums (NO_SECURITY) or without a
download location (INVALID_FORMAT), then checking any previously cached
firmware file against the SHA1 checksum.  A NULL app from
`new_app_from_device` reaches the state check through the g_return
guards of the getters, which yield the `GsApp.base` defaults. -/
def gs_plugin_fwupd_new_app (env : FwupdEnv) (dev : FwupdDevice) :
    Except GError GsApp :=
  let rel := dev.release_default
  let app := (gs_plugin_fwupd_new_app_from_device env dev).getD GsApp.base
  if app.state ≠ .updatableLive then .error (.gs .notSupported)
  else if app.id = none then .error (.gs .notSupported)
  else if app.version = none then .error (.gs .notSupported)
  else if app.update_version = none then .error (.gs .notSupported)
  else if rel.checksums = [] then .error (.gs .noSecurity)
  else if rel.uri = none then .error (.gs .invalidFormat)
  else if ¬ env.cache_filename_ok then .error (.gs .failed)
  else if env.cache_file_exists then
    match env.file_checksum with
    | none => .error (.gs .failed)
    | some cs =>
      if env.checksum_by_kind rel.checksums ≠ some cs then .error (.gs .invalidFormat)
      else .ok { app with size_download := some 0, local_file := some env.cache_filename }
  else .ok { app with local_file := some env.cache_filename }

end Fwupd

structure FwupdOpResult where
  err : Option GError
  app : GsApp
  ops : List FwupdOp
  deriving DecidableEq, Repr

/-- Lines 882-913 of `gs_plugin_fwupd_install`: after a successful install
the device is looked up again; a device with an update message gets the
action screenshot and the NEEDS_USER_ACTION quirk. -/
def fwupd_install_check_message (env : FwupdEnv) (app : GsApp)
    (ops : List FwupdOp) : FwupdOpResult :=
  match env.device_after_install with
  | none => ⟨none, app, ops ++ [.get_device]⟩
  | some dev =>
    match dev.update_message with
    | none => ⟨none, app, ops ++ [.get_device]⟩
    | some msg =>
      ⟨none,
        { app with action_screenshot := some msg, needs_user_action := true },
        ops ++ [.get_device]⟩

/-- Lines 854-916 of `gs_plugin_fwupd_install`: set INSTALLING, invoke the
daemon install (converting its error and restoring the previous state on
failure), then advance to INSTALLED and delete any firmware file that was
downloaded to the cache. -/
def fwupd_install_main (env : FwupdEnv) (app : GsApp)
    (downloaded_to_cache : Bool) (ops : List FwupdOp) : FwupdOpResult :=
  let app2 := gs_app_set_state app .installing
  match env.install_result with
  | some e =>
    ⟨some (gs_plugin_fwupd_error_convert e), gs_app_set_state_recover app2,
      ops ++ [.client_install]⟩
  | none =>
    let app3 := gs_app_set_state app2 .installed
    if downloaded_to_cache then
      match env.delete_result with
      | some e => ⟨some e, app3, ops ++ [.client_install, .delete_cache_file]⟩
      | none => fwupd_install_check_message env app3 (ops ++ [.client_install, .delete_cache_file])
    else
      fwupd_install_check_message env app3 (ops ++ [.client_install])

namespace Fwupd

/-- `gs_plugin_fwupd_install` (lines 804-917).  No local file recorded:
FAILED.  A missing firmware file is downloaded first — note that this
step sets INSTALLING and, when the download fails, returns the converted
error without restoring the previous state (lines 832-852). -/
def gs_plugin_fwupd_install (env : FwupdEnv) (app : GsApp) : FwupdOpResult :=
  match app.local_file with
  | none => ⟨some (.gs .failed), app, []⟩
  | some _ =>
    if ¬ env.local_file_exists then
      let app1 := gs_app_set_state app .installing
      match env.download_result with
      | some e =>
        ⟨some (gs_plugin_fwupd_error_convert e), app1, [.download_file]⟩
      | none => fwupd_install_main env app1 true [.download_file]
    else
      fwupd_install_main env app false []

/-- `gs_plugin_fwupd_modify_source` (lines 919-947): set the transient
state, ask the daemon to enable/disable the remote, restore the previous
state on failure, otherwise land in INSTALLED (enable) or AVAILABLE
(disable). -/
def gs_plugin_fwupd_modify_source (env : FwupdEnv) (app : GsApp)
    (enabled : Bool) : FwupdOpResult :=
  match app.fwupd_remote_id with
  | none => ⟨some (.gs .failed), app, []⟩
  | some _ =>
    let app1 := gs_app_set_state app (if enabled then .installing else .removing)
    match env.modify_remote_result with
    | some e => ⟨some e, gs_app_set_state_recover app1, [.modify_remote]⟩
    | none =>
      ⟨none, gs_app_set_state app1 (if enabled then .installed else .available),
        [.modify_remote]⟩

/-- `gs_plugin_app_install` (lines 949-968): apps not owned by this
plugin are ignored with success; repositories map to enabling the remote,
anything else to a firmware install. -/
def gs_plugin_app_install (env : FwupdEnv) (app : GsApp) : FwupdOpResult :=
  if app.management_plugin ≠ some "fwupd" then ⟨none, app, []⟩
  else if app.kind = .repository then gs_plugin_fwupd_modify_source env app true
  else gs_plugin_fwupd_install env app

/-- `gs_plugin_app_remove` (lines 970-981): apps not owned by this plugin
are ignored with success; otherwise the remote is disabled. -/
def gs_plugin_app_remove (env : FwupdEnv) (app : GsApp) : FwupdOpResult :=
  if app.management_plugin ≠ some "fwupd" then ⟨none, app, []⟩
  else gs_plugin_fwupd_modify_source env app false

end Fwupd

/-! ## Shared concrete objects for witnesses and counterexamples -/

def sample_cfg : OdrsConfig :=
  ⟨some "https://odrs.gnome.org/1.0/reviews/api", "hash0", "Fedora"⟩

def disabled_cfg : OdrsConfig := ⟨none, "hash0", "Fedora"⟩

def sample_env : OdrsEnv where
  cache_filename_ok := true
  ratings_file_age := 1000
  cache_ratings := .ok [⟨some "org.example.App", [0, 1, 2, 3, 4, 5]⟩]
  download_ratings_ok := true
  downloaded_ratings := .ok [⟨some "org.example.App", [0, 1, 2, 3, 4, 5]⟩]
  review_file_age := fun _ => 0
  cached_reviews := fun _ => .ok []
  fetch_reviews := fun _ => .ok []
  save_review_cache_ok := true
  invalidate_cache_ok := true
  post_result := fun _ => none
  moderate_reviews := .ok []
  wilson := fun _ _ _ _ _ => 50
  interactive := false

def rating_only_flags : GsPluginRefineFlags := ⟨false, false, true⟩

def both_flags : GsPluginRefineFlags := ⟨true, false, true⟩

def reviews_only_flags : GsPluginRefineFlags := ⟨true, false, false⟩

/-! ## C1 -/

/-- C1: refinement is idempotent for the rating flag.  For an app whose
`review_ratings` attribute is already set, a refine whose flags consist of
REQUIRE_RATING and/or REQUIRE_REVIEW_RATINGS (the spec scenario requests
exactly `{REQUIRE_RATING}`) succeeds, performs no backend or network
operation, and leaves the app — its rating included — unchanged. -/
theorem C1_refine_rating_idempotent (env : OdrsEnv) (cfg : OdrsConfig)
    (st : OdrsState) (app : GsApp) (flags : GsPluginRefineFlags) (rr : List Nat)
    (hrr : app.review_ratings = some rr)
    (hnorev : flags.require_reviews = false)
    (hflag : flags.require_review_ratings = true ∨ flags.require_rating = true) :
    Odrs.refine_app env cfg st app flags = ⟨none, app, st, []⟩ := by
  unfold Odrs.refine_app odrs_refine_app_ratings
  split_ifs <;> simp_all

def c1_app : GsApp :=
  { GsApp.base with
    id := some "org.example.App"
    review_ratings := some [0, 1, 2, 3, 4, 5]
    rating := some 60 }

/-- Witness for C1: a concrete app with `review_ratings` already set and
flags `{REQUIRE_RATING}`. -/
theorem C1_refine_rating_idempotent_witness :
    c1_app.review_ratings = some [0, 1, 2, 3, 4, 5]
    ∧ rating_only_flags.require_reviews = false
    ∧ rating_only_flags.require_rating = true
    ∧ Odrs.refine_app sample_env sample_cfg ⟨none⟩ c1_app rating_only_flags
        = ⟨none, c1_app, ⟨none⟩, []⟩ :=
  ⟨rfl, rfl, rfl,
    C1_refine_rating_idempotent sample_env sample_cfg ⟨none⟩ c1_app
      rating_only_flags [0, 1, 2, 3, 4, 5] rfl rfl (Or.inr rfl)⟩

/-! ## C2 -/

def c2_review : AsReview :=
  ⟨some "reviewer1", 80, some "org.example.App", none, false, false⟩

def c2_app : GsApp :=
  { GsApp.base with id := some "org.example.App", reviews := [c2_review] }

def c2_st : OdrsState := ⟨some [⟨some "org.example.App", [0, 1, 2, 3, 4, 5]⟩]⟩

/-- C2 counterexample: with flags {REQUIRE_REVIEWS, REQUIRE_RATING}, an
app whose reviews are already non-empty but whose `review_ratings` is not
set, `refine_app` returns success immediately (line 972's `return TRUE`),
performing no operation at all and leaving `review_ratings` unset — the
rating flag is NOT processed, even though refining the ratings directly
for the same app against the same loaded ratings state would have set
`review_ratings` (last conjunct). -/
theorem C2_counterexample :
    Odrs.refine_app sample_env sample_cfg c2_st c2_app both_flags
      = ⟨none, c2_app, c2_st, []⟩
    ∧ c2_app.review_ratings = none
    ∧ 0 < c2_app.reviews.length
    ∧ both_flags.require_reviews = true
    ∧ both_flags.require_rating = true
    ∧ (Odrs.gs_plugin_odrs_refine_ratings sample_env sample_cfg c2_st c2_app).app.review_ratings
        = some [0, 1, 2, 3, 4, 5] := by
  refine ⟨by decide, by decide, by decide, rfl, rfl, ?_⟩
  simp +decide [Odrs.gs_plugin_odrs_refine_ratings, odrs_apply_ratings,
    odrs_accumulate, odrs_lookup_rating, g_array_binary_search, binsearch_loop,
    rating_compare, g_strcmp0, string_compare, _gs_app_get_reviewable_ids,
    odrs_sum6, sample_env, sample_cfg, odrs_enabled, c2_app, c2_st]

/-- C2 (amended): the two flag families are not satisfied independently.
When REQUIRE_REVIEWS is requested and the app's reviews are already
non-empty, `refine_app` returns success at once and the rating flags are
not processed; the ratings half runs only when REQUIRE_REVIEWS is absent
(or the reviews fetch went through). -/
theorem C2_reviews_flag_suppresses_rating (env : OdrsEnv) (cfg : OdrsConfig)
    (st : OdrsState) (app : GsApp) (flags : GsPluginRefineFlags) (i : String)
    (hid : app.id = some i) (hkind : app.kind ≠ .addon) :
    (flags.require_reviews = true → 0 < app.reviews.length →
      Odrs.refine_app env cfg st app flags = ⟨none, app, st, []⟩)
    ∧ (flags.require_reviews = false →
       (flags.require_review_ratings = true ∨ flags.require_rating = true) →
       app.review_ratings = none →
       Odrs.refine_app env cfg st app flags =
         ⟨none, (Odrs.gs_plugin_odrs_refine_ratings env cfg st app).app,
           (Odrs.gs_plugin_odrs_refine_ratings env cfg st app).st,
           (Odrs.gs_plugin_odrs_refine_ratings env cfg st app).ops⟩) := by
  constructor
  · intro hrev hlen
    unfold Odrs.refine_app
    split_ifs <;> simp_all
  · intro hrev hflag hrrnone
    unfold Odrs.refine_app odrs_refine_app_ratings
    split_ifs <;> simp_all

def c2b_app : GsApp := { GsApp.base with id := some "org.example.App" }

/-- Witness for the amended C2, applying the theorem at both kinds of
input: the suppressed case and the processed case. -/
theorem C2_reviews_flag_suppresses_rating_witness :
    Odrs.refine_app sample_env sample_cfg c2_st c2_app both_flags
      = ⟨none, c2_app, c2_st, []⟩
    ∧ Odrs.refine_app sample_env sample_cfg c2_st c2b_app rating_only_flags =
        ⟨none, (Odrs.gs_plugin_odrs_refine_ratings sample_env sample_cfg c2_st c2b_app).app,
          (Odrs.gs_plugin_odrs_refine_ratings sample_env sample_cfg c2_st c2b_app).st,
          (Odrs.gs_plugin_odrs_refine_ratings sample_env sample_cfg c2_st c2b_app).ops⟩ :=
  ⟨(C2_reviews_flag_suppresses_rating sample_env sample_cfg c2_st c2_app both_flags
      "org.example.App" rfl (by decide)).1 rfl (by decide),
   (C2_reviews_flag_suppresses_rating sample_env sample_cfg c2_st c2b_app rating_only_flags
      "org.example.App" rfl (by decide)).2 rfl (Or.inr rfl) rfl⟩

/-! ## C4 -/

def c4_app : GsApp := { GsApp.base with id := some "org.example.App" }

def c4_env_stale : OdrsEnv :=
  { sample_env with review_file_age := fun _ => 300000 }

def c4_env_fresh : OdrsEnv :=
  { sample_env with review_file_age := fun _ => 100000 }

/-- C4: the per-app review cache cutoff in the code is
`ODRS_REVIEW_CACHE_AGE_MAX = 237000` seconds, while the code's own
comment (and the spec) say one week, i.e. 604800 seconds.  At the failing
input — a cached file 300000 seconds old, well under one week — the code
performs a network fetch instead of reusing the cache; below the 237000
cutoff it does reuse the cache without network work. -/
theorem C4_cache_ttl_mismatch :
    ODRS_REVIEW_CACHE_AGE_MAX = 237000
    ∧ ODRS_REVIEW_CACHE_AGE_MAX ≠ 604800
    ∧ 300000 < 604800
    ∧ ¬ 300000 < ODRS_REVIEW_CACHE_AGE_MAX
    ∧ (Odrs.gs_plugin_odrs_fetch_for_app c4_env_stale sample_cfg c4_app).2
        = [.network_fetch_reviews "org.example.App"]
    ∧ (Odrs.gs_plugin_odrs_fetch_for_app c4_env_fresh sample_cfg c4_app).2
        = [.disk_read_review_cache "org.example.App"] := by
  refine ⟨rfl, by decide, by decide, by decide, by decide, by decide⟩

/-! ## C8 -/

/-- C8: with the review-server setting unset or empty the plugin is a
no-results backend, not an error, for refresh and refinement (success,
nothing produced, no I/O at all), while the result-requiring actions —
submitting a review, voting, fetching unvoted reviews — fail with
NOT_SUPPORTED. -/
theorem C8_disabled_backend (env : OdrsEnv) (cfg : OdrsConfig) (st : OdrsState)
    (app : GsApp) (review : AsReview) (cache_age : Nat)
    (h : odrs_enabled cfg = false) :
    Odrs.gs_plugin_refresh env cfg st cache_age = ⟨none, st, [], []⟩
    ∧ Odrs.gs_plugin_odrs_refine_ratings env cfg st app = ⟨app, st, []⟩
    ∧ Odrs.gs_plugin_odrs_fetch_for_app env cfg app = (.ok [], [])
    ∧ Odrs.gs_plugin_review_submit env cfg app review
        = ⟨some .notSupported, review, []⟩
    ∧ (∀ path, Odrs.gs_plugin_odrs_vote env cfg review path
        = ⟨some .notSupported, review, []⟩)
    ∧ Odrs.gs_plugin_add_unvoted_reviews env cfg = ⟨some .notSupported, [], []⟩ := by
  refine ⟨?_, ?_, ?_, ?_, ?_, ?_⟩
  · unfold Odrs.gs_plugin_refresh
    simp [h]
  · unfold Odrs.gs_plugin_odrs_refine_ratings
    simp [h]
  · unfold Odrs.gs_plugin_odrs_fetch_for_app
    simp [h]
  · unfold Odrs.gs_plugin_review_submit
    simp [h]
  · intro path
    unfold Odrs.gs_plugin_odrs_vote
    simp [h]
  · unfold Odrs.gs_plugin_add_unvoted_reviews
    simp [h]

/-- Witness for C8 with the concrete disabled configuration. -/
theorem C8_disabled_backend_witness :
    odrs_enabled disabled_cfg = false
    ∧ Odrs.gs_plugin_refresh sample_env disabled_cfg ⟨none⟩ 86400 = ⟨none, ⟨none⟩, [], []⟩
    ∧ Odrs.gs_plugin_odrs_refine_ratings sample_env disabled_cfg ⟨none⟩ c2b_app
        = ⟨c2b_app, ⟨none⟩, []⟩
    ∧ Odrs.gs_plugin_review_submit sample_env disabled_cfg c2b_app c2_review
        = ⟨some .notSupported, c2_review, []⟩
    ∧ Odrs.gs_plugin_add_unvoted_reviews sample_env disabled_cfg
        = ⟨some .notSupported, [], []⟩ :=
  ⟨rfl,
   (C8_disabled_backend sample_env disabled_cfg ⟨none⟩ c2b_app c2_review 86400 rfl).1,
   (C8_disabled_backend sample_env disabled_cfg ⟨none⟩ c2b_app c2_review 86400 rfl).2.1,
   (C8_disabled_backend sample_env disabled_cfg ⟨none⟩ c2b_app c2_review 86400 rfl).2.2.2.1,
   (C8_disabled_backend sample_env disabled_cfg ⟨none⟩ c2b_app c2_review 86400 rfl).2.2.2.2.2⟩

/-! ## C3 -/

lemma odrs_refine_app_ratings_err (env : OdrsEnv) (cfg : OdrsConfig)
    (st : OdrsState) (app : GsApp) (flags : GsPluginRefineFlags)
    (ops : List OdrsOp) :
    (odrs_refine_app_ratings env cfg st app flags ops).err = none := by
  unfold odrs_refine_app_ratings
  split_ifs <;> rfl

/-- The error component of `refine_app` does not depend on the ratings
state: only the reviews fetch can fail. -/
lemma refine_app_err_eq (env : OdrsEnv) (cfg : OdrsConfig) (st : OdrsState)
    (app : GsApp) (flags : GsPluginRefineFlags) :
    (Odrs.refine_app env cfg st app flags).err =
      if app.kind = .addon then none
      else if app.id = none then none
      else if flags.require_reviews = true ∧ app.reviews.length = 0 then
        (Odrs.gs_plugin_odrs_refine_reviews env cfg app).err
      else none := by
  by_cases h1 : app.kind = .addon
  · simp [Odrs.refine_app, h1]
  by_cases h2 : app.id = none
  · simp [Odrs.refine_app, h1, h2]
  by_cases h3 : flags.require_reviews = true
  · by_cases h4 : 0 < app.reviews.length
    · have hne : app.reviews ≠ [] := by
        intro hnil
        rw [hnil] at h4
        simp at h4
      simp [Odrs.refine_app, h1, h2, h3, h4, hne]
    · have hlen : app.reviews.length = 0 := by omega
      rcases hr : Odrs.gs_plugin_odrs_refine_reviews env cfg app with ⟨e, app1, ops1⟩
      cases e with
      | none =>
        simp [Odrs.refine_app, h1, h2, h3, h4, hr, hlen,
          odrs_refine_app_ratings_err]
      | some e0 =>
        simp [Odrs.refine_app, h1, h2, h3, h4, hr, hlen]
  · simp [Odrs.refine_app, h1, h2, h3, odrs_refine_app_ratings_err]

lemma refine_app_err_st_irrel (env : OdrsEnv) (cfg : OdrsConfig)
    (st st' : OdrsState) (app : GsApp) (flags : GsPluginRefineFlags) :
    (Odrs.refine_app env cfg st app flags).err =
      (Odrs.refine_app env cfg st' app flags).err := by
  rw [refine_app_err_eq, refine_app_err_eq]

lemma refine_loop_all_ok (env : OdrsEnv) (cfg : OdrsConfig)
    (flags : GsPluginRefineFlags) :
    ∀ (apps : List GsApp) (st : OdrsState),
      (∀ a ∈ apps, (Odrs.refine_app env cfg st a flags).err = none ∨
        (Odrs.refine_app env cfg st a flags).err = some .noNetwork) →
      (Odrs.refine_loop env cfg flags st apps).err = none ∧
        (Odrs.refine_loop env cfg flags st apps).attempted = apps.length := by
  intro apps
  induction apps with
  | nil =>
    intro st h
    simp [Odrs.refine_loop]
  | cons a rest ih =>
    intro st h
    have ha := h a (List.mem_cons_self a rest)
    have hrest : ∀ b ∈ rest,
        (Odrs.refine_app env cfg (Odrs.refine_app env cfg st a flags).st b flags).err = none ∨
        (Odrs.refine_app env cfg (Odrs.refine_app env cfg st a flags).st b flags).err = some .noNetwork := by
      intro b hb
      rw [refine_app_err_st_irrel env cfg (Odrs.refine_app env cfg st a flags).st st b flags]
      exact h b (List.mem_cons_of_mem a hb)
    have htail := ih (Odrs.refine_app env cfg st a flags).st hrest
    rw [Odrs.refine_loop]
    rcases he : (Odrs.refine_app env cfg st a flags).err with _ | e0
    · simp [htail.1, htail.2]
    · have he0 : e0 = GsPluginErrorCode.noNetwork := by
        rcases ha with ha | ha
        · rw [he] at ha
          exact absurd ha (by simp)
        · rw [he] at ha
          rw [Option.some.injEq] at ha
          exact ha
      subst he0
      simp [htail.1, htail.2]

/-- C3 (amended): a NO_NETWORK failure while refining one app never fails
the refine job — every app is still attempted and `gs_plugin_refine`
returns success; a failed ratings download during refresh is reported as
a single event — flagged WARNING for a normal refresh, and flagged
INTERACTIVE instead when the plugin runs interactively — and
`gs_plugin_refresh` returns success either way. -/
theorem C3_no_network_is_non_fatal :
    (∀ (env : OdrsEnv) (cfg : OdrsConfig) (st : OdrsState) (apps : List GsApp)
      (flags : GsPluginRefineFlags),
      (∀ a ∈ apps, (Odrs.refine_app env cfg st a flags).err = none ∨
        (Odrs.refine_app env cfg st a flags).err = some .noNetwork) →
      (Odrs.gs_plugin_refine env cfg st apps flags).err = none ∧
      ((flags.require_reviews = true ∨ flags.require_review_ratings = true ∨
          flags.require_rating = true) →
        (Odrs.gs_plugin_refine env cfg st apps flags).attempted = apps.length))
    ∧ (∀ (env : OdrsEnv) (cfg : OdrsConfig) (st : OdrsState) (cache_age : Nat),
      odrs_enabled cfg = true →
      env.cache_filename_ok = true →
      ¬ (0 < cache_age ∧ env.ratings_file_age < cache_age) →
      env.download_ratings_ok = false →
      Odrs.gs_plugin_refresh env cfg st cache_age =
        ⟨none, st, [⟨true, if env.interactive then .interactive else .warning⟩],
          [.network_download_ratings]⟩) := by
  constructor
  · intro env cfg st apps flags h
    unfold Odrs.gs_plugin_refine
    split_ifs with hf
    · have := refine_loop_all_ok env cfg flags apps st h
      exact ⟨this.1, fun _ => this.2⟩
    · exact ⟨rfl, fun hrel => absurd hrel hf⟩
  · intro env cfg st cache_age hen hcf hage hdl
    unfold Odrs.gs_plugin_refresh
    simp [hen, hcf, hage, hdl]

def c3_appA : GsApp := { GsApp.base with id := some "org.app.A" }

def c3_appB : GsApp := { GsApp.base with id := some "org.app.B" }

def c3_refine_env : OdrsEnv :=
  { sample_env with
    review_file_age := fun _ => 999999999
    fetch_reviews := fun aid =>
      if aid = "org.app.A" then .error .noNetwork else .ok [] }

def c3_refresh_env : OdrsEnv :=
  { sample_env with
    ratings_file_age := 999999999
    download_ratings_ok := false }

/-- Witness for C3: a two-app list where the first app's reviews fetch
fails with NO_NETWORK, and a non-interactive refresh whose download
fails. -/
theorem C3_no_network_is_non_fatal_witness :
    ((Odrs.gs_plugin_refine c3_refine_env sample_cfg ⟨none⟩ [c3_appA, c3_appB]
        reviews_only_flags).err = none
      ∧ (Odrs.gs_plugin_refine c3_refine_env sample_cfg ⟨none⟩ [c3_appA, c3_appB]
          reviews_only_flags).attempted = 2)
    ∧ Odrs.gs_plugin_refresh c3_refresh_env sample_cfg ⟨none⟩ 86400 =
        ⟨none, ⟨none⟩, [⟨true, .warning⟩], [.network_download_ratings]⟩ := by
  constructor
  · have h := C3_no_network_is_non_fatal.1 c3_refine_env sample_cfg ⟨none⟩
      [c3_appA, c3_appB] reviews_only_flags (by decide)
    exact ⟨h.1, h.2 (Or.inl rfl)⟩
  · exact C3_no_network_is_non_fatal.2 c3_refresh_env sample_cfg ⟨none⟩ 86400
      rfl rfl (by decide) rfl

def c3_interactive_env : OdrsEnv :=
  { sample_env with
    ratings_file_age := 999999999
    download_ratings_ok := false
    interactive := true }

/-- C3 counterexample: when the plugin runs interactively, the event
reported for a failed ratings download carries the INTERACTIVE flag, not
WARNING (lines 344-347), so "reported as a WARNING event" does not hold
of every failed download; the refresh still returns success. -/
theorem C3_counterexample :
    (Odrs.gs_plugin_refresh c3_interactive_env sample_cfg ⟨none⟩ 86400).err = none
    ∧ (Odrs.gs_plugin_refresh c3_interactive_env sample_cfg ⟨none⟩ 86400).events
        = [⟨true, .interactive⟩]
    ∧ (⟨true, .interactive⟩ : GsPluginEvent).flag ≠ .warning := by
  refine ⟨by decide, by decide, by decide⟩

/-! ## C5 -/

/-- Lookup in the grouped-reviews accumulator (the role `g_hash_table_lookup`
plays in the C loop). -/
def odrs_find (aid : String) : List (String × List AsReview) → Option (List AsReview)
  | [] => none
  | (k, rs) :: rest => if k = aid then some rs else odrs_find aid rest

lemma odrs_find_attach_self (aid : String) (r : AsReview) :
    ∀ acc, odrs_find aid (odrs_attach aid r acc) =
      some ((odrs_find aid acc).getD [] ++ [r]) := by
  intro acc
  induction acc with
  | nil => simp [odrs_attach, odrs_find]
  | cons p rest ih =>
    obtain ⟨k, rs⟩ := p
    by_cases hk : k = aid
    · subst hk
      simp [odrs_attach, odrs_find]
    · simp [odrs_attach, odrs_find, hk, ih]

lemma odrs_attach_cons_self (aid : String) (r : AsReview) (rs : List AsReview)
    (rest : List (String × List AsReview)) :
    odrs_attach aid r ((aid, rs) :: rest) = (aid, rs ++ [r]) :: rest := by
  simp [odrs_attach]

lemma odrs_attach_cons_other (aid k : String) (hk : k ≠ aid) (r : AsReview)
    (rs : List AsReview) (rest : List (String × List AsReview)) :
    odrs_attach aid r ((k, rs) :: rest) = (k, rs) :: odrs_attach aid r rest := by
  simp [odrs_attach, hk]

lemma odrs_find_cons_self (k : String) (rs : List AsReview)
    (rest : List (String × List AsReview)) :
    odrs_find k ((k, rs) :: rest) = some rs := by
  simp [odrs_find]

lemma odrs_find_cons_other (k entry : String) (hne : entry ≠ k)
    (rs : List AsReview) (rest : List (String × List AsReview)) :
    odrs_find k ((entry, rs) :: rest) = odrs_find k rest := by
  simp [odrs_find, hne]

lemma odrs_find_attach_other (aid k : String) (r : AsReview) (h : k ≠ aid) :
    ∀ acc, odrs_find k (odrs_attach aid r acc) = odrs_find k acc := by
  intro acc
  induction acc with
  | nil =>
    show odrs_find k [(aid, [r])] = none
    rw [odrs_find_cons_other k aid (fun he => h he.symm) [r] []]
    rfl
  | cons p rest ih =>
    obtain ⟨k0, rs⟩ := p
    by_cases hk0 : k0 = aid
    · subst hk0
      rw [odrs_attach_cons_self]
      rw [odrs_find_cons_other k k0 (fun he => h he.symm),
        odrs_find_cons_other k k0 (fun he => h he.symm)]
    · rw [odrs_attach_cons_other _ _ hk0]
      by_cases hk : k0 = k
      · subst hk
        rw [odrs_find_cons_self, odrs_find_cons_self]
      · rw [odrs_find_cons_other k k0 hk, odrs_find_cons_other k k0 hk, ih]

lemma odrs_attach_keys (aid : String) (r : AsReview) :
    ∀ acc, (odrs_attach aid r acc).map Prod.fst =
      if aid ∈ acc.map Prod.fst then acc.map Prod.fst
      else acc.map Prod.fst ++ [aid] := by
  intro acc
  induction acc with
  | nil => simp [odrs_attach]
  | cons p rest ih =>
    obtain ⟨k, rs⟩ := p
    by_cases hk : k = aid
    · subst hk
      simp [odrs_attach]
    · have hne : ¬ aid = k := fun he => hk he.symm
      simp only [odrs_attach, if_neg hk, List.map_cons, List.mem_cons, hne,
        false_or, ih]
      split_ifs <;> simp

lemma odrs_attach_nodup_keys (aid : String) (r : AsReview)
    (acc : List (String × List AsReview)) (h : (acc.map Prod.fst).Nodup) :
    ((odrs_attach aid r acc).map Prod.fst).Nodup := by
  rw [odrs_attach_keys]
  split_ifs with hmem
  · exact h
  · rw [List.nodup_append]
    exact ⟨h, List.nodup_singleton aid, by simpa using hmem⟩

lemma odrs_attach_mem (aid : String) (r : AsReview) :
    ∀ acc q, q ∈ odrs_attach aid r acc → q ∈ acc ∨ q.1 = aid := by
  intro acc
  induction acc with
  | nil =>
    intro q hq
    simp [odrs_attach] at hq
    subst hq
    exact Or.inr rfl
  | cons p rest ih =>
    obtain ⟨k, rs⟩ := p
    intro q hq
    by_cases hk : k = aid
    · subst hk
      rw [odrs_attach_cons_self, List.mem_cons] at hq
      rcases hq with hq | hq
      · subst hq
        exact Or.inr rfl
      · exact Or.inl (List.mem_cons_of_mem _ hq)
    · rw [odrs_attach_cons_other _ _ hk, List.mem_cons] at hq
      rcases hq with hq | hq
      · subst hq
        exact Or.inl (List.mem_cons_self _ _)
      · rcases ih q hq with h1 | h1
        · exact Or.inl (List.mem_cons_of_mem _ h1)
        · exact Or.inr h1

lemma odrs_attach_content (aid : String) (r : AsReview)
    (hr : r.app_id = some aid) :
    ∀ acc, (∀ p ∈ acc, ∀ x ∈ p.2, x.app_id = some p.1) →
      ∀ p ∈ odrs_attach aid r acc, ∀ x ∈ p.2, x.app_id = some p.1 := by
  intro acc
  induction acc with
  | nil =>
    intro hw p hp x hx
    simp [odrs_attach] at hp
    subst hp
    simp at hx
    subst hx
    exact hr
  | cons q rest ih =>
    obtain ⟨k, rs⟩ := q
    intro hw p hp x hx
    by_cases hk : k = aid
    · subst hk
      rw [odrs_attach_cons_self, List.mem_cons] at hp
      rcases hp with hp | hp
      · subst hp
        simp only [List.mem_append, List.mem_singleton] at hx
        rcases hx with hx | hx
        · exact hw (k, rs) (List.mem_cons_self _ _) x hx
        · subst hx
          exact hr
      · exact hw p (List.mem_cons_of_mem _ hp) x hx
    · rw [odrs_attach_cons_other _ _ hk, List.mem_cons] at hp
      rcases hp with hp | hp
      · subst hp
        exact hw (k, rs) (List.mem_cons_self _ _) x hx
      · exact ih (fun p2 hp2 => hw p2 (List.mem_cons_of_mem _ hp2)) p hp x hx

/-- The grouping step used by `odrs_group_reviews`. -/
def odrs_group_step (acc : List (String × List AsReview)) (r : AsReview) :
    List (String × List AsReview) :=
  odrs_attach (r.app_id.getD "") r acc

lemma odrs_group_reviews_eq_foldl (reviews : List AsReview) :
    odrs_group_reviews reviews = reviews.foldl odrs_group_step [] := rfl

lemma odrs_group_go_nodup :
    ∀ (rs : List AsReview) (acc : List (String × List AsReview)),
      (acc.map Prod.fst).Nodup →
      ((rs.foldl odrs_group_step acc).map Prod.fst).Nodup := by
  intro rs
  induction rs with
  | nil => intro acc h; simpa using h
  | cons x xs ih =>
    intro acc h
    exact ih (odrs_group_step acc x) (odrs_attach_nodup_keys _ x acc h)

lemma odrs_group_go_persist :
    ∀ (rs : List AsReview) (acc : List (String × List AsReview)) (aid : String)
      (l : List AsReview),
      odrs_find aid acc = some l →
      ∃ l', odrs_find aid (rs.foldl odrs_group_step acc) = some l' ∧
        ∀ x ∈ l, x ∈ l' := by
  intro rs
  induction rs with
  | nil =>
    intro acc aid l h
    exact ⟨l, h, fun x hx => hx⟩
  | cons y ys ih =>
    intro acc aid l h
    by_cases hy : y.app_id.getD "" = aid
    · have hstep : odrs_find aid (odrs_group_step acc y) = some (l ++ [y]) := by
        unfold odrs_group_step
        rw [hy, odrs_find_attach_self, h]
        rfl
      obtain ⟨l', hl', hsub⟩ := ih (odrs_group_step acc y) aid (l ++ [y]) hstep
      exact ⟨l', hl', fun x hx => hsub x (List.mem_append_left _ hx)⟩
    · have hstep : odrs_find aid (odrs_group_step acc y) = some l := by
        unfold odrs_group_step
        rw [odrs_find_attach_other _ _ _ (fun he => hy he.symm), h]
      exact ih (odrs_group_step acc y) aid l hstep

lemma odrs_group_go_mem :
    ∀ (rs : List AsReview) (acc : List (String × List AsReview)) (r : AsReview),
      r ∈ rs →
      ∃ l, odrs_find (r.app_id.getD "") (rs.foldl odrs_group_step acc) = some l ∧
        r ∈ l := by
  intro rs
  induction rs with
  | nil =>
    intro acc r hr
    exact absurd hr (List.not_mem_nil r)
  | cons y ys ih =>
    intro acc r hr
    rcases List.mem_cons.mp hr with hr | hr
    · subst hr
      have hstep : odrs_find (r.app_id.getD "") (odrs_group_step acc r) =
          some ((odrs_find (r.app_id.getD "") acc).getD [] ++ [r]) := by
        unfold odrs_group_step
        exact odrs_find_attach_self _ _ _
      obtain ⟨l', hl', hsub⟩ := odrs_group_go_persist ys (odrs_group_step acc r)
        (r.app_id.getD "") _ hstep
      exact ⟨l', hl', hsub r (List.mem_append_right _ (List.mem_singleton_self r))⟩
    · exact ih (odrs_group_step acc y) r hr

lemma odrs_group_go_src :
    ∀ (rs : List AsReview) (acc : List (String × List AsReview)) q,
      q ∈ rs.foldl odrs_group_step acc →
      q ∈ acc ∨ ∃ r ∈ rs, q.1 = r.app_id.getD "" := by
  intro rs
  induction rs with
  | nil =>
    intro acc q hq
    exact Or.inl hq
  | cons y ys ih =>
    intro acc q hq
    rcases ih (odrs_group_step acc y) q hq with h1 | h1
    · rcases odrs_attach_mem _ y acc q h1 with h2 | h2
      · exact Or.inl h2
      · exact Or.inr ⟨y, List.mem_cons_self _ _, h2⟩
    · obtain ⟨r, hr, he⟩ := h1
      exact Or.inr ⟨r, List.mem_cons_of_mem _ hr, he⟩

lemma odrs_group_go_content :
    ∀ (rs : List AsReview) (acc : List (String × List AsReview)),
      (∀ r ∈ rs, r.app_id ≠ none) →
      (∀ p ∈ acc, ∀ x ∈ p.2, x.app_id = some p.1) →
      ∀ p ∈ rs.foldl odrs_group_step acc, ∀ x ∈ p.2, x.app_id = some p.1 := by
  intro rs
  induction rs with
  | nil =>
    intro acc _ hw
    exact hw
  | cons y ys ih =>
    intro acc hids hw
    have hy : y.app_id = some (y.app_id.getD "") := by
      rcases hid : y.app_id with _ | v
      · exact absurd hid (hids y (List.mem_cons_self _ _))
      · rfl
    exact ih (odrs_group_step acc y)
      (fun r hr => hids r (List.mem_cons_of_mem _ hr))
      (odrs_attach_content _ y hy acc hw)

lemma odrs_find_some_mem (aid : String) :
    ∀ (acc : List (String × List AsReview)) (l : List AsReview),
      odrs_find aid acc = some l → (aid, l) ∈ acc := by
  intro acc
  induction acc with
  | nil =>
    intro l h
    simp [odrs_find] at h
  | cons p rest ih =>
    obtain ⟨k, rs⟩ := p
    intro l h
    by_cases hk : k = aid
    · subst hk
      rw [odrs_find_cons_self, Option.some.injEq] at h
      subst h
      exact List.mem_cons_self _ _
    · rw [odrs_find_cons_other aid k hk] at h
      exact List.mem_cons_of_mem _ (ih l h)

/-- C5: after a successful `gs_plugin_add_unvoted_reviews`, the entries
added to the app list are unique per review app id — each distinct app id
yields exactly one entry (Nodup ids), every fetched review is attached to
the entry carrying its app id, and entries carry only reviews of their
own id and only ids that occur among the reviews. -/
theorem C5_unvoted_reviews_unique (env : OdrsEnv) (cfg : OdrsConfig)
    (reviews : List AsReview)
    (hen : odrs_enabled cfg = true)
    (hmod : env.moderate_reviews = .ok reviews)
    (hids : ∀ r ∈ reviews, r.app_id ≠ none) :
    ∃ apps, Odrs.gs_plugin_add_unvoted_reviews env cfg
        = ⟨none, apps, [.network_get_moderate]⟩
      ∧ (apps.map GsApp.id).Nodup
      ∧ (∀ r ∈ reviews, ∃ a ∈ apps, a.id = r.app_id ∧ r ∈ a.reviews)
      ∧ (∀ a ∈ apps, ∀ x ∈ a.reviews, x.app_id = a.id)
      ∧ (∀ a ∈ apps, ∃ r ∈ reviews, a.id = r.app_id) := by
  have hrun : Odrs.gs_plugin_add_unvoted_reviews env cfg =
      ⟨none,
        (odrs_group_reviews reviews).map
          (fun p => { gs_plugin_create_app_dummy p.1 with reviews := p.2 }),
        [.network_get_moderate]⟩ := by
    unfold Odrs.gs_plugin_add_unvoted_reviews
    simp [hen, hmod]
  refine ⟨_, hrun, ?_, ?_, ?_, ?_⟩
  · rw [List.map_map]
    have hkeys : ((odrs_group_reviews reviews).map Prod.fst).Nodup := by
      rw [odrs_group_reviews_eq_foldl]
      exact odrs_group_go_nodup reviews [] (by simp)
    have hmapeq : (odrs_group_reviews reviews).map
        (GsApp.id ∘ fun p => { gs_plugin_create_app_dummy p.1 with reviews := p.2 })
        = ((odrs_group_reviews reviews).map Prod.fst).map some := by
      rw [List.map_map]
      rfl
    rw [hmapeq]
    exact hkeys.map (Option.some_injective String)
  · intro r hr
    obtain ⟨l, hl, hrl⟩ := odrs_group_go_mem reviews [] r hr
    have hment : (r.app_id.getD "", l) ∈ odrs_group_reviews reviews := by
      rw [odrs_group_reviews_eq_foldl]
      exact odrs_find_some_mem _ _ l hl
    refine ⟨{ gs_plugin_create_app_dummy (r.app_id.getD "") with reviews := l },
      List.mem_map_of_mem _ hment, ?_, hrl⟩
    rcases hid : r.app_id with _ | v
    · exact absurd hid (hids r hr)
    · simp [gs_plugin_create_app_dummy, hid]
  · intro a ha x hx
    obtain ⟨p, hp, he⟩ := List.mem_map.mp ha
    have hcontent := odrs_group_go_content reviews [] hids (by simp) p
      (by rw [odrs_group_reviews_eq_foldl] at hp; exact hp) x
      (by rw [← he] at hx; exact hx)
    rw [← he]
    simpa [gs_plugin_create_app_dummy] using hcontent
  · intro a ha
    obtain ⟨p, hp, he⟩ := List.mem_map.mp ha
    rcases odrs_group_go_src reviews [] p
      (by rw [odrs_group_reviews_eq_foldl] at hp; exact hp) with h1 | h1
    · exact absurd h1 (List.not_mem_nil p)
    · obtain ⟨r, hr, hkey⟩ := h1
      refine ⟨r, hr, ?_⟩
      rcases hid : r.app_id with _ | v
      · exact absurd hid (hids r hr)
      · rw [← he]
        simp [gs_plugin_create_app_dummy, hkey, hid]

def c5_reviews : List AsReview :=
  [⟨some "u1", 80, some "org.app.A", none, false, false⟩,
   ⟨some "u2", 60, some "org.app.B", none, false, false⟩,
   ⟨some "u3", 40, some "org.app.A", none, false, false⟩]

def c5_env : OdrsEnv := { sample_env with moderate_reviews := .ok c5_reviews }

/-- Witness for C5: three fetched reviews over two distinct app ids. -/
theorem C5_unvoted_reviews_unique_witness :
    ∃ apps, Odrs.gs_plugin_add_unvoted_reviews c5_env sample_cfg
        = ⟨none, apps, [.network_get_moderate]⟩
      ∧ (apps.map GsApp.id).Nodup
      ∧ (∀ r ∈ c5_reviews, ∃ a ∈ apps, a.id = r.app_id ∧ r ∈ a.reviews)
      ∧ (∀ a ∈ apps, ∀ x ∈ a.reviews, x.app_id = a.id)
      ∧ (∀ a ∈ apps, ∃ r ∈ c5_reviews, a.id = r.app_id) :=
  C5_unvoted_reviews_unique c5_env sample_cfg c5_reviews rfl rfl (by decide)

/-! ## Shared concrete fwupd environment -/

def fw_env_base : FwupdEnv where
  cache_lookup := fun _ => none
  set_from_device := fun a _ => a
  set_from_release := fun a _ => a
  checksum_by_kind := fun l => l.head?
  cache_filename := "/var/cache/gs/fwupd/fw.cab"
  cache_filename_ok := true
  cache_file_exists := false
  file_checksum := none
  local_file_exists := true
  download_result := none
  install_result := none
  delete_result := none
  modify_remote_result := none
  device_after_install := none

/-! ## C6 -/

/-- C6: install and remove act only against the app's management owner.
An app not owned by "fwupd" is returned unchanged with success and no
daemon call; an app owned by "fwupd" is dispatched to the single backend
operation, whose failure is exactly the operation's failure. -/
theorem C6_install_remove_management_owner (env : FwupdEnv) (app : GsApp) :
    (app.management_plugin ≠ some "fwupd" →
      Fwupd.gs_plugin_app_install env app = ⟨none, app, []⟩ ∧
      Fwupd.gs_plugin_app_remove env app = ⟨none, app, []⟩)
    ∧ (app.management_plugin = some "fwupd" → app.kind = .repository →
      Fwupd.gs_plugin_app_install env app =
        Fwupd.gs_plugin_fwupd_modify_source env app true)
    ∧ (app.management_plugin = some "fwupd" → app.kind ≠ .repository →
      Fwupd.gs_plugin_app_install env app = Fwupd.gs_plugin_fwupd_install env app)
    ∧ (app.management_plugin = some "fwupd" →
      Fwupd.gs_plugin_app_remove env app =
        Fwupd.gs_plugin_fwupd_modify_source env app false)
    ∧ (∀ e, app.management_plugin = some "fwupd" → app.kind = .repository →
      (Fwupd.gs_plugin_fwupd_modify_source env app true).err = some e →
      (Fwupd.gs_plugin_app_install env app).err = some e)
    ∧ (∀ e, app.management_plugin = some "fwupd" → app.kind ≠ .repository →
      (Fwupd.gs_plugin_fwupd_install env app).err = some e →
      (Fwupd.gs_plugin_app_install env app).err = some e)
    ∧ (∀ e, app.management_plugin = some "fwupd" →
      (Fwupd.gs_plugin_fwupd_modify_source env app false).err = some e →
      (Fwupd.gs_plugin_app_remove env app).err = some e) := by
  refine ⟨?_, ?_, ?_, ?_, ?_, ?_, ?_⟩
  · intro h
    constructor
    · unfold Fwupd.gs_plugin_app_install
      rw [if_pos h]
    · unfold Fwupd.gs_plugin_app_remove
      rw [if_pos h]
  · intro h hk
    unfold Fwupd.gs_plugin_app_install
    rw [if_neg (by simp [h]), if_pos hk]
  · intro h hk
    unfold Fwupd.gs_plugin_app_install
    rw [if_neg (by simp [h]), if_neg hk]
  · intro h
    unfold Fwupd.gs_plugin_app_remove
    rw [if_neg (by simp [h])]
  · intro e h hk he
    unfold Fwupd.gs_plugin_app_install
    rw [if_neg (by simp [h]), if_pos hk]
    exact he
  · intro e h hk he
    unfold Fwupd.gs_plugin_app_install
    rw [if_neg (by simp [h]), if_neg hk]
    exact he
  · intro e h he
    unfold Fwupd.gs_plugin_app_remove
    rw [if_neg (by simp [h])]
    exact he

def c6_other_app : GsApp :=
  { GsApp.base with
    id := some "org.example.App"
    management_plugin := some "packagekit"
    state := .available }

def c6_repo_app : GsApp :=
  { GsApp.base with
    id := some "org.fwupd.lvfs.remote"
    kind := .repository
    management_plugin := some "fwupd"
    fwupd_remote_id := some "lvfs"
    state := .available }

def c6_fail_env : FwupdEnv :=
  { fw_env_base with modify_remote_result := some (.fwupd .authFailed) }

/-- Witness for C6: a packagekit-owned app is untouched by both calls; a
fwupd-owned repository whose remote modification fails yields exactly that
failure from install. -/
theorem C6_install_remove_management_owner_witness :
    (Fwupd.gs_plugin_app_install c6_fail_env c6_other_app = ⟨none, c6_other_app, []⟩
      ∧ Fwupd.gs_plugin_app_remove c6_fail_env c6_other_app = ⟨none, c6_other_app, []⟩)
    ∧ (Fwupd.gs_plugin_app_install c6_fail_env c6_repo_app).err
        = some (.fwupd .authFailed) :=
  ⟨(C6_install_remove_management_owner c6_fail_env c6_other_app).1 (by decide),
   (C6_install_remove_management_owner c6_fail_env c6_repo_app).2.2.2.2.1
     (.fwupd .authFailed) rfl rfl (by decide)⟩

/-! ## C7 -/

/-- C7 counterexample: the conversion routine maps
FWUPD_ERROR_AC_POWER_REQUIRED to GS_PLUGIN_ERROR_AC_POWER_REQUIRED
(lines 73-75), a code outside the spec's nine-element taxonomy (as is
BATTERY_LEVEL_TOO_LOW). -/
theorem C7_counterexample :
    gs_plugin_fwupd_error_convert (.fwupd .acPowerRequired)
      = .gs .acPowerRequired
    ∧ GsPluginErrorCode.acPowerRequired ∉ spec_error_code_list
    ∧ gs_plugin_fwupd_error_convert (.fwupd .batteryLevelTooLow)
      = .gs .batteryLevelTooLow
    ∧ GsPluginErrorCode.batteryLevelTooLow ∉ spec_error_code_list := by
  refine ⟨rfl, by decide, rfl, by decide⟩

/-- C7 (amended): every error entering the conversion routine from a
foreign domain leaves it in the plugin error domain with a code drawn
from the spec taxonomy extended with AC_POWER_REQUIRED and
BATTERY_LEVEL_TOO_LOW; and a device whose default release carries no
integrity checksums produces no update entity, being rejected with
NO_SECURITY. -/
theorem C7_error_taxonomy :
    (∀ e : GError, (∀ c, e ≠ GError.gs c) →
      ∃ c2, gs_plugin_fwupd_error_convert e = .gs c2 ∧
        (c2 ∈ spec_error_code_list ∨ c2 = .acPowerRequired ∨
          c2 = .batteryLevelTooLow))
    ∧ (∀ (env : FwupdEnv) (dev : FwupdDevice),
      ((Fwupd.gs_plugin_fwupd_new_app_from_device env dev).getD GsApp.base).state
          = .updatableLive →
      ((Fwupd.gs_plugin_fwupd_new_app_from_device env dev).getD GsApp.base).id ≠ none →
      ((Fwupd.gs_plugin_fwupd_new_app_from_device env dev).getD GsApp.base).version ≠ none →
      ((Fwupd.gs_plugin_fwupd_new_app_from_device env dev).getD GsApp.base).update_version ≠ none →
      dev.release_default.checksums = [] →
      Fwupd.gs_plugin_fwupd_new_app env dev = .error (.gs .noSecurity)) := by
  constructor
  · intro e he
    cases e with
    | gs c => exact absurd rfl (he c)
    | fwupd c => cases c <;> exact ⟨_, rfl, by decide⟩
    | gio n => exact ⟨.failed, rfl, by decide⟩
    | gdbus n => exact ⟨.failed, rfl, by decide⟩
    | other d n => exact ⟨.failed, rfl, by decide⟩
  · intro env dev h1 h2 h3 h4 h5
    unfold Fwupd.gs_plugin_fwupd_new_app
    simp [h1, h2, h3, h4, h5]

def c7_env : FwupdEnv :=
  { fw_env_base with
    set_from_device := fun a _ =>
      { a with state := .updatableLive, version := some "0.2" }
    set_from_release := fun a _ => { a with update_version := some "0.3" } }

def c7_dev : FwupdDevice :=
  ⟨"ro-fw-dev-1", some "0.2",
    ⟨some "com.test.chiron.firmware", some "0.3", some "http://127.0.0.1/fw.cab", []⟩,
    none⟩

/-- Witness for the amended C7: a concrete foreign-domain error and a
concrete otherwise-valid device whose release has no checksums. -/
theorem C7_error_taxonomy_witness :
    (∃ c2, gs_plugin_fwupd_error_convert (.fwupd .invalidFile) = .gs c2 ∧
      (c2 ∈ spec_error_code_list ∨ c2 = .acPowerRequired ∨
        c2 = .batteryLevelTooLow))
    ∧ Fwupd.gs_plugin_fwupd_new_app c7_env c7_dev = .error (.gs .noSecurity) :=
  ⟨C7_error_taxonomy.1 (.fwupd .invalidFile) (by intro c; exact fun h => GError.noConfusion h),
   C7_error_taxonomy.2 c7_env c7_dev (by decide) (by decide) (by decide) (by decide) rfl⟩

/-! ## C9 -/

def c9_app : GsApp :=
  { GsApp.base with
    id := some "com.test.chiron.firmware"
    kind := .firmware
    state := .updatableLive
    management_plugin := some "fwupd"
    local_file := some "/var/cache/gs/fwupd/fw.cab" }

def c9_download_fail_env : FwupdEnv :=
  { fw_env_base with
    local_file_exists := false
    download_result := some (.gs .noNetwork) }

/-- C9 counterexample: when the firmware file is missing, the install path
sets INSTALLING before downloading (line 836/846) and returns the error
of a failed download without `gs_app_set_state_recover` (lines 837-849),
leaving the app in INSTALLING instead of its prior state. -/
theorem C9_counterexample :
    (Fwupd.gs_plugin_fwupd_install c9_download_fail_env c9_app).err
      = some (.gs .noNetwork)
    ∧ c9_app.state = .updatableLive
    ∧ (Fwupd.gs_plugin_fwupd_install c9_download_fail_env c9_app).app.state
      = .installing
    ∧ GsAppState.installing ≠ GsAppState.updatableLive := by
  refine ⟨by decide, rfl, by decide, by decide⟩

/-- C9 (amended): for the daemon calls proper the prior state is
restored on failure — a failed `fwupd_client_install` (with the firmware
file already present) and a failed `fwupd_client_modify_remote` both
return the error with the app back in its pre-attempt state, and only
success advances the state to INSTALLED (or AVAILABLE on disable).  The
exception the counterexample exhibits is the download step inside the
install path, which leaves INSTALLING behind on failure. -/
theorem C9_failed_operations_restore_state (env : FwupdEnv) (app : GsApp)
    (hs1 : app.state ≠ .installing) (hs2 : app.state ≠ .removing) :
    (∀ e, app.local_file ≠ none → env.local_file_exists = true →
      env.install_result = some e →
      (Fwupd.gs_plugin_fwupd_install env app).err
          = some (gs_plugin_fwupd_error_convert e) ∧
      (Fwupd.gs_plugin_fwupd_install env app).app.state = app.state)
    ∧ (app.local_file ≠ none → env.local_file_exists = true →
      env.install_result = none →
      (Fwupd.gs_plugin_fwupd_install env app).err = none ∧
      (Fwupd.gs_plugin_fwupd_install env app).app.state = .installed)
    ∧ (∀ e enabled, app.fwupd_remote_id ≠ none →
      env.modify_remote_result = some e →
      (Fwupd.gs_plugin_fwupd_modify_source env app enabled).err = some e ∧
      (Fwupd.gs_plugin_fwupd_modify_source env app enabled).app.state = app.state)
    ∧ (∀ enabled, app.fwupd_remote_id ≠ none →
      env.modify_remote_result = none →
      (Fwupd.gs_plugin_fwupd_modify_source env app enabled).err = none ∧
      (Fwupd.gs_plugin_fwupd_modify_source env app enabled).app.state =
        (if enabled then .installed else .available)) := by
  refine ⟨?_, ?_, ?_, ?_⟩
  · intro e hlf hex hres
    rcases hl : app.local_file with _ | f
    · exact absurd hl hlf
    unfold Fwupd.gs_plugin_fwupd_install fwupd_install_main
    rw [hl]
    simp [hex, hres, gs_app_set_state, gs_app_set_state_recover, hs1]
  · intro hlf hex hres
    rcases hl : app.local_file with _ | f
    · exact absurd hl hlf
    unfold Fwupd.gs_plugin_fwupd_install fwupd_install_main fwupd_install_check_message
    rw [hl]
    rcases hdev : env.device_after_install with _ | dev
    · simp [hex, hres, hdev, gs_app_set_state, hs1]
    · rcases hmsg : dev.update_message with _ | msg <;>
        simp [hex, hres, hdev, hmsg, gs_app_set_state, hs1]
  · intro e enabled hrid hres
    rcases hr : app.fwupd_remote_id with _ | rid
    · exact absurd hr hrid
    unfold Fwupd.gs_plugin_fwupd_modify_source
    rw [hr]
    cases enabled <;>
      simp [hres, gs_app_set_state, gs_app_set_state_recover, hs1, hs2]
  · intro enabled hrid hres
    rcases hr : app.fwupd_remote_id with _ | rid
    · exact absurd hr hrid
    unfold Fwupd.gs_plugin_fwupd_modify_source
    rw [hr]
    cases enabled <;>
      simp [hres, gs_app_set_state, gs_app_set_state_recover, hs1, hs2]

def c9_install_fail_env : FwupdEnv :=
  { fw_env_base with install_result := some (.fwupd .authFailed) }

/-- Witness for the amended C9 at concrete inputs: a failed and a
successful daemon install, and a failed and a successful remote
modification. -/
theorem C9_failed_operations_restore_state_witness :
    ((Fwupd.gs_plugin_fwupd_install c9_install_fail_env c9_app).err
        = some (gs_plugin_fwupd_error_convert (.fwupd .authFailed))
      ∧ (Fwupd.gs_plugin_fwupd_install c9_install_fail_env c9_app).app.state
        = c9_app.state)
    ∧ ((Fwupd.gs_plugin_fwupd_install fw_env_base c9_app).err = none
      ∧ (Fwupd.gs_plugin_fwupd_install fw_env_base c9_app).app.state = .installed)
    ∧ ((Fwupd.gs_plugin_fwupd_modify_source c6_fail_env c6_repo_app true).err
        = some (.fwupd .authFailed)
      ∧ (Fwupd.gs_plugin_fwupd_modify_source c6_fail_env c6_repo_app true).app.state
        = c6_repo_app.state)
    ∧ ((Fwupd.gs_plugin_fwupd_modify_source fw_env_base c6_repo_app false).err = none
      ∧ (Fwupd.gs_plugin_fwupd_modify_source fw_env_base c6_repo_app false).app.state
        = .available) :=
  ⟨(C9_failed_operations_restore_state c9_install_fail_env c9_app
      (by decide) (by decide)).1 (.fwupd .authFailed) (by decide) rfl rfl,
   (C9_failed_operations_restore_state fw_env_base c9_app
      (by decide) (by decide)).2.1 (by decide) rfl rfl,
   (C9_failed_operations_restore_state c6_fail_env c6_repo_app
      (by decide) (by decide)).2.2.1 (.fwupd .authFailed) true (by decide) rfl,
   by
     have h := (C9_failed_operations_restore_state fw_env_base c6_repo_app
       (by decide) (by decide)).2.2.2 false (by decide) rfl
     exact ⟨h.1, h.2⟩⟩
